import Mathlib

/-!
# Verification of the screenshot-api service core

Shallow embedding, in Lean 4, of the resource-management core of the
screenshot-api repository: the TTL cache (`services/cache.ts`), the
sliding-window rate limiter (`middleware/rateLimiter.ts`), the retry loop and
capture pipeline of the browser service (`services/browser.ts`), the error
classifier (`middleware/errorHandler.ts` / `index.ts`), the SSRF URL
validator (`utils/validators.ts`), the ad-block predicate
(`utils/adblock.ts`) and the cache-key fingerprint (`utils/hash.ts`).

Times are modelled as `Int` (JS `Date.now()` millisecond values), byte
buffers as `List Nat`, and strings as `String` or `List Char`.  Stateful
JS code is modelled by explicit state passing: every function that reads
`Date.now()` takes `now : Int` as an argument, and the module-level mutable
stores (the cache `Map`, the rate-limit `Map`, the singleton browser) become
explicit arguments and results.
-/

namespace ScreenshotApi

/-! ## Cache service (`services/cache.ts`)

The JS store is `Map<string, CacheEntry<ScreenshotMetadata>>`.  We model it
as an association list with (at most) one binding per key; `Map.set` becomes
remove-then-cons, which preserves lookup and key-membership semantics
(iteration order of a JS `Map` is not relevant to any claim). -/

structure CacheEntry (α : Type) where
  data : α
  createdAt : Int
  expiresAt : Int
  deriving Repr, DecidableEq

/-- The in-memory cache store. -/
abbrev CacheStore (α : Type) : Type := List (String × CacheEntry α)

/-- Source: `setCache` — stores `data` with `expiresAt = now + config.cacheTtl`.
`ttl` stands for `config.cacheTtl` (default 3600000 ms). -/
def setCache (ttl now : Int) (c : CacheStore α) (key : String) (d : α) : CacheStore α :=
  (key, ⟨d, now, now + ttl⟩) :: c.filter (fun p => p.1 ≠ key)

/-- Source: `getCache` — returns the stored data unless `Date.now() > entry.expiresAt`,
in which case the entry is deleted and `null` is returned.  The pair is
(returned value, cache store after the call). -/
def getCache (now : Int) (c : CacheStore α) (key : String) : Option α × CacheStore α :=
  match c.find? (fun p => p.1 == key) with
  | none => (none, c)
  | some (_, e) =>
    if now > e.expiresAt then (none, c.filter (fun p => p.1 ≠ key))
    else (some e.data, c)

/-- Result of `getCacheStats`. -/
structure CacheStats where
  size : Nat
  keys : List String
  store : List (String × Int)
  deriving Repr, DecidableEq

/-- Source: `getCacheStats` — first deletes every entry with `now > expiresAt`,
then returns the size and key list of what remains.  `store` records the
(key, expiresAt) pairs remaining after the sweep, i.e. the post-call state. -/
def getCacheStats (now : Int) (c : CacheStore α) : CacheStats :=
  let c' := c.filter (fun p => !(now > p.2.expiresAt))
  ⟨c'.length, c'.map Prod.fst, c'.map (fun p => (p.1, p.2.expiresAt))⟩

/-! ## Rate limiter (`middleware/rateLimiter.ts`)

Per-client state is the timestamp list stored in `rateLimitStore`;
`config.rateLimit` provides `windowMs` and `maxRequests`. -/

structure RateConfig where
  windowMs : Int
  maxRequests : Int
  deriving Repr, DecidableEq

structure RateCheck where
  allowed : Bool
  remaining : Int
  resetIn : Int
  deriving Repr, DecidableEq

/-- Source: `cleanupTimestamps` — `timestamps.filter((ts) => ts > windowStart)`. -/
def cleanupTimestamps (timestamps : List Int) (windowStart : Int) : List Int :=
  timestamps.filter (fun ts => windowStart < ts)

/-- Source: `checkRateLimit` — prune, count, compare with `maxRequests`,
and compute the reset time from the oldest surviving timestamp
(`Math.min(...timestamps)`). -/
def checkRateLimit (cfg : RateConfig) (now : Int) (timestamps : List Int) : RateCheck :=
  let windowStart := now - cfg.windowMs
  let ts := cleanupTimestamps timestamps windowStart
  let count : Int := ts.length
  let remaining := max 0 (cfg.maxRequests - count)
  let resetIn :=
    match ts with
    | [] => cfg.windowMs
    | x :: xs => (xs.foldl min x) + cfg.windowMs - now
  ⟨decide (count < cfg.maxRequests), remaining, resetIn⟩

/-- Source: `recordRequest` — prune then append `now`. -/
def recordRequest (cfg : RateConfig) (now : Int) (timestamps : List Int) : List Int :=
  cleanupTimestamps timestamps (now - cfg.windowMs) ++ [now]

/-- The admission check as C3 words it: timestamps *strictly older* than
`now - windowSize` are discarded (so one exactly at the window edge is kept),
then the same formulas are applied.  This is the claim-side definition used
to compare the claim's wording against `checkRateLimit`. -/
def checkPerClaimC3 (cfg : RateConfig) (now : Int) (timestamps : List Int) : RateCheck :=
  let windowStart := now - cfg.windowMs
  let ts := timestamps.filter (fun t => windowStart ≤ t)
  let count : Int := ts.length
  let remaining := max 0 (cfg.maxRequests - count)
  let resetIn :=
    match ts with
    | [] => cfg.windowMs
    | x :: xs => (xs.foldl min x) + cfg.windowMs - now
  ⟨decide (count < cfg.maxRequests), remaining, resetIn⟩

/-! ## String helpers (JS `String.prototype.includes`, `toLowerCase`, `endsWith`)

`Char.toLower` lowercases ASCII letters, which matches JS `toLowerCase` and
regex `/i` matching on the ASCII-only patterns appearing in this code base. -/

/-- JS `hay.includes(pat)`: `pat` occurs as a contiguous substring of `hay`. -/
def strContains (hay pat : String) : Bool :=
  decide (pat.data <:+: hay.data)

/-- ASCII lowercasing of a string (JS `toLowerCase` on ASCII input). -/
def lowerStr (s : String) : String :=
  ⟨s.data.map Char.toLower⟩

/-- Case-insensitive substring test: a JS regex `/lit/i.test(hay)` for a
literal pattern `lit`. -/
def ciContains (hay pat : String) : Bool :=
  strContains (lowerStr hay) (lowerStr pat)

/-! ## Retry loop (`services/browser.ts`, `captureScreenshot`)

The loop `for (attempt = 0; attempt <= maxRetries; attempt++)` with
`maxRetries = 2` calls `captureScreenshotOnce` up to three times.  The
behaviour of each attempt (its outcome, and whether the shared `browser`
global is non-null when the attempt ends) is the loop's environment, modelled
as a function `f : Nat → AttemptOutcome × Bool`. -/

inductive AttemptOutcome where
  | ok (buf : List Nat)
  | err (msg : String)
  deriving Repr, DecidableEq

/-- Source: the retry condition
`msg.includes('closed') || msg.includes('Target page') || msg.includes('Protocol error')`. -/
def isRetryableMsg (msg : String) : Bool :=
  strContains msg "closed" || strContains msg "Target page" || strContains msg "Protocol error"

/-- Observable events of a `captureScreenshot` run: the start of attempt `i`,
and the forced browser invalidation (`await browser.close(); browser = null`). -/
inductive RetryEv where
  | att (i : Nat)
  | invalidate
  deriving Repr, DecidableEq

/-- Whether a retry event is the start of an attempt. -/
def isAttEv : RetryEv → Bool
  | .att _ => true
  | .invalidate => false

instance {ε α : Type} [DecidableEq ε] [DecidableEq α] : DecidableEq (Except ε α) := fun a b =>
  match a, b with
  | .ok x, .ok y =>
    if h : x = y then .isTrue (by rw [h]) else .isFalse (fun hc => h (Except.ok.inj hc))
  | .ok _, .error _ => .isFalse (fun hc => Except.noConfusion hc)
  | .error _, .ok _ => .isFalse (fun hc => Except.noConfusion hc)
  | .error x, .error y =>
    if h : x = y then .isTrue (by rw [h]) else .isFalse (fun hc => h (Except.error.inj hc))

/-- Trace of one `captureScreenshot` call.  `startStates` lists, per attempt
actually run, whether a shared browser handle existed when it started. -/
structure CaptureTrace where
  result : Except String (List Nat)
  attempts : Nat
  events : List RetryEv
  startStates : List Bool
  deriving Repr, DecidableEq

/-- The retry loop body.  `fuel` counts the remaining loop iterations
(`maxRetries + 1 - attempt`); when it reaches 0 the loop exits and
`throw lastError` runs. -/
def captureLoop (f : Nat → AttemptOutcome × Bool) :
    Nat → Nat → Bool → Option String → List RetryEv → List Bool → CaptureTrace
  | 0, attempt, _, lastErr, evs, sts =>
      ⟨Except.error (lastErr.getD "Screenshot capture failed"), attempt, evs, sts⟩
  | fuel + 1, attempt, browser, _, evs, sts =>
      let step := f attempt
      let evs1 := evs ++ [RetryEv.att attempt]
      let sts1 := sts ++ [browser]
      match step.1 with
      | .ok b => ⟨Except.ok b, attempt + 1, evs1, sts1⟩
      | .err m =>
        if isRetryableMsg m then
          captureLoop f fuel (attempt + 1) false (some m)
            (evs1 ++ (if step.2 then [RetryEv.invalidate] else [])) sts1
        else ⟨Except.error m, attempt + 1, evs1, sts1⟩

/-- Source: `captureScreenshot` — three loop iterations at most
(`maxRetries = 2`).  `browser0` is whether a shared handle exists at entry. -/
def captureScreenshot (f : Nat → AttemptOutcome × Bool) (browser0 : Bool) : CaptureTrace :=
  captureLoop f 3 0 browser0 none [] []

/-- Claim-side attempt count: 1 attempt if the first attempt succeeds or fails
non-retryably, otherwise consider the second, and so on, capped at 3. -/
def retrySpecAttempts (f : Nat → AttemptOutcome × Bool) : Nat :=
  match (f 0).1 with
  | .ok _ => 1
  | .err m =>
    if isRetryableMsg m then
      match (f 1).1 with
      | .ok _ => 2
      | .err m1 => if isRetryableMsg m1 then 3 else 2
    else 1

/-! ## Capture requests (`utils/validators.ts` schema) -/

inductive Device where
  | desktop
  | tablet
  | mobile
  deriving Repr, DecidableEq

inductive WaitStrategy where
  | load
  | domcontentloaded
  | networkidle
  deriving Repr, DecidableEq

/-- The validated `ScreenshotRequest` of `utils/validators.ts`: `width` and
`height` stay absent when not supplied (no default); all other fields are
defaulted by the schema. -/
structure ScreenshotRequest where
  url : String
  width : Option Nat
  height : Option Nat
  fullPage : Bool
  darkMode : Bool
  blockAds : Bool
  device : Device
  waitFor : WaitStrategy
  timeout : Nat
  deriving Repr, DecidableEq

/-- Device viewport presets from `config.ts` (`config.devices`). -/
def deviceWidth : Device → Nat
  | .desktop => 1920
  | .tablet => 768
  | .mobile => 375

/-- Device viewport presets from `config.ts` (`config.devices`). -/
def deviceHeight : Device → Nat
  | .desktop => 1080
  | .tablet => 1024
  | .mobile => 667

/-! ## Capture attempt (`services/browser.ts`, `captureScreenshotOnce`)

One attempt creates a context, a page, optionally installs ad-block routing,
navigates, waits (non-fatally), screenshots, validates the PNG payload, and
in a `finally` block closes the page then the context, each close wrapped in
`.catch(() => {})`.  The external engine's behaviour is the environment
`AttemptEnv`: one `Except` outcome per engine call.  The returned action list
records the engine calls made, in order. -/

structure AttemptEnv where
  createContext : Except String Unit
  newPage : Except String Unit
  route : Except String Unit
  goto : Except String Unit
  waitForPage : Except String Unit
  shot : Except String (List Nat)
  closePage : Except String Unit
  closeContext : Except String Unit
  host : String
  deriving Repr, DecidableEq

inductive PipeAct where
  | createContext
  | newPage
  | route
  | goto
  | waitForPage
  | shot
  | closePage
  | closeContext
  deriving Repr, DecidableEq

/-- Whether an action is one of the cleanup closes. -/
def isCloseAct : PipeAct → Bool
  | .closePage => true
  | .closeContext => true
  | _ => false

/-- Whether an engine call succeeded. -/
def exOk {α : Type} : Except String α → Bool
  | .ok _ => true
  | .error _ => false

/-- The PNG signature `[0x89, 0x50, 0x4e, 0x47, 0x0d, 0x0a, 0x1a, 0x0a]`. -/
def pngSignature : List Nat := [0x89, 0x50, 0x4e, 0x47, 0x0d, 0x0a, 0x1a, 0x0a]

/-- Source: `pngSignature.every((byte, i) => bufferArray[i] === byte)`.
An index past the end of the buffer reads `undefined` in JS, which compares
unequal to every byte. -/
def pngSignatureOk (buf : List Nat) : Bool :=
  pngSignature.enum.all fun p =>
    match buf.get? p.1 with
    | some v => v == p.2
    | none => false

/-- Source: the `catch (navError)` remapping of navigation failures in
`captureScreenshotOnce` (`host` is `new URL(options.url).hostname`). -/
def navErrorRemap (url host msg : String) : String :=
  if strContains msg "ERR_NAME_NOT_RESOLVED" then "Could not resolve domain: " ++ host
  else if strContains msg "ERR_CONNECTION_REFUSED" then "Connection refused by " ++ host
  else if strContains msg "ERR_CONNECTION_TIMED_OUT" || strContains msg "Timeout" then
    "Timeout navigating to " ++ url
  else msg

/-- The `finally` block when both a page and a context exist: page first,
then context. -/
def closeBothActs : List PipeAct := [PipeAct.closePage, PipeAct.closeContext]

/-- The attempt from the navigation step on (context and page both exist, so
every exit path from here appends `closeBothActs`).  The wait step's outcome
is deliberately never consulted: the source catches and only logs it. -/
def capturePipelineTail (req : ScreenshotRequest) (env : AttemptEnv)
    (acts : List PipeAct) : Except String (List Nat) × List PipeAct :=
  match env.goto with
  | .error e =>
    (.error (navErrorRemap req.url env.host e), (acts ++ [PipeAct.goto]) ++ closeBothActs)
  | .ok _ =>
    let acts2 := acts ++ [PipeAct.goto, PipeAct.waitForPage]
    match env.shot with
    | .error e => (.error e, (acts2 ++ [PipeAct.shot]) ++ closeBothActs)
    | .ok buf =>
      if buf.length = 0 then
        (.error "Screenshot capture returned empty buffer",
          (acts2 ++ [PipeAct.shot]) ++ closeBothActs)
      else if pngSignatureOk buf = false then
        (.error "Screenshot capture returned invalid PNG data",
          (acts2 ++ [PipeAct.shot]) ++ closeBothActs)
      else (.ok buf, (acts2 ++ [PipeAct.shot]) ++ closeBothActs)

/-- Source: `captureScreenshotOnce`.  If `createContext` throws, neither
resource exists and nothing is closed; if `newPage` throws, only the context
is closed; from then on both are closed on every exit path.  The ad-block
`page.route` call happens only when `options.blockAds`. -/
def captureScreenshotOnce (req : ScreenshotRequest) (env : AttemptEnv) :
    Except String (List Nat) × List PipeAct :=
  match env.createContext with
  | .error e => (.error e, [PipeAct.createContext])
  | .ok _ =>
    match env.newPage with
    | .error e => (.error e, [PipeAct.createContext, PipeAct.newPage, PipeAct.closeContext])
    | .ok _ =>
      if req.blockAds then
        match env.route with
        | .error e =>
          (.error e, ([PipeAct.createContext, PipeAct.newPage, PipeAct.route]) ++ closeBothActs)
        | .ok _ =>
          capturePipelineTail req env [PipeAct.createContext, PipeAct.newPage, PipeAct.route]
      else capturePipelineTail req env [PipeAct.createContext, PipeAct.newPage]

/-! ## URL validation (`utils/validators.ts`, `urlSchema`)

The two `refine` steps operate on `new URL(url).protocol` and
`new URL(url).hostname`; the embedding takes those two parsed components as
inputs.  The private-IP test is the regex
`^(\d{1,3})\.(\d{1,3})\.(\d{1,3})\.(\d{1,3})$` followed by `Number(...)`
conversion of the four groups. -/

/-- Source: the `blockedHostnames` array. -/
def blockedHostnames : List String :=
  ["localhost", "127.0.0.1", "0.0.0.0", "::1", "metadata.google.internal", "169.254.169.254"]

/-- Split a character list at every dot (JS-regex group structure: the
candidate groups of `a.b.c.d`). -/
def splitDots : List Char → List (List Char)
  | [] => [[]]
  | c :: rest =>
    if c = '.' then [] :: splitDots rest
    else
      match splitDots rest with
      | [] => [[c]]
      | g :: gs => (c :: g) :: gs

/-- Numeric value of a decimal digit character. -/
def digitVal (c : Char) : Nat := c.toNat - 48

/-- One `\d{1,3}` group and its `Number(...)` value (leading zeros allowed,
as in JS `Number("016") = 16`). -/
def octetValue? (g : List Char) : Option Nat :=
  if g ≠ [] ∧ g.length ≤ 3 ∧ g.all Char.isDigit then
    some (g.foldl (fun a c => a * 10 + digitVal c) 0)
  else none

/-- The full-anchor regex match of a dotted quad, with the group values. -/
def ipQuad? (host : List Char) : Option (Nat × Nat × Nat × Nat) :=
  match splitDots host with
  | [g1, g2, g3, g4] =>
    match octetValue? g1, octetValue? g2, octetValue? g3, octetValue? g4 with
    | some a, some b, some c, some d => some (a, b, c, d)
    | _, _, _, _ => none
  | _ => none

/-- Source: the private-range checks `a === 10`, `a === 172 && 16 <= b <= 31`,
`a === 192 && b === 168` applied when the hostname matches the quad regex. -/
def privateIpBlocked (host : List Char) : Bool :=
  match ipQuad? host with
  | none => false
  | some (a, b, _, _) =>
    if a = 10 then true
    else if a = 172 ∧ 16 ≤ b ∧ b ≤ 31 then true
    else if a = 192 ∧ b = 168 then true
    else false

/-- Source: `urlSchema`'s two refinements — protocol must be http/https, the
lowercased hostname must not be a blocked literal nor a private dotted quad. -/
def urlAllowed (protocol hostname : String) : Bool :=
  (protocol == "http:" || protocol == "https:") &&
    (let h := lowerStr hostname
     !(blockedHostnames.contains h) && !(privateIpBlocked h.data))

/-- A request body as the validator sees it: the parsed URL components, the
outcome of the plain `z.string().url()` format test (`urlOk`), the outcome of
the remaining zod field checks (`fieldsOk`), and the parsed request on
success. -/
structure RequestBody where
  protocol : String
  hostname : String
  urlOk : Bool
  fieldsOk : Bool
  req : ScreenshotRequest
  deriving Repr, DecidableEq

/-- Source: `validateScreenshotRequest` succeeds iff the URL is well formed,
both `urlSchema` refinements pass, and every other field check passes. -/
def validateBody (b : RequestBody) : Bool :=
  b.urlOk && urlAllowed b.protocol b.hostname && b.fieldsOk

/-! ## Cache-key fingerprint (`utils/hash.ts`, `generateCacheKey`)

`generateCacheKey` builds the object literal
`{url, width, height, fullPage, darkMode, blockAds, device, waitFor}` —
timeout deliberately left out — serializes it with `JSON.stringify`, hashes
the UTF-8 bytes with SHA-256 and keeps the first 16 hex characters.  The
embedding reproduces `JSON.stringify` for this object shape: keys in
insertion order, the optional `width`/`height` omitted when `undefined`,
strings escaped as JSON string literals, numbers in decimal. -/

/-- Lowercase hexadecimal digit of a value below 16. -/
def hexDigit (d : Nat) : Char :=
  if d < 10 then Char.ofNat (48 + d) else Char.ofNat (87 + d)

/-- JSON.stringify's escaping of one character: quote and backslash get a
backslash, the five named control characters use their short escapes, the
remaining control characters become `\u00XX`, everything else is verbatim. -/
def jsonEscapeChar (c : Char) : List Char :=
  if c = '"' then ['\\', '"']
  else if c = '\\' then ['\\', '\\']
  else if 32 ≤ c.toNat then [c]
  else if c.toNat = 8 then ['\\', 'b']
  else if c.toNat = 9 then ['\\', 't']
  else if c.toNat = 10 then ['\\', 'n']
  else if c.toNat = 12 then ['\\', 'f']
  else if c.toNat = 13 then ['\\', 'r']
  else ['\\', 'u', '0', '0', hexDigit (c.toNat / 16), hexDigit (c.toNat % 16)]

/-- JSON string-body escaping, character by character. -/
def jsonEscape : List Char → List Char
  | [] => []
  | c :: rest => jsonEscapeChar c ++ jsonEscape rest

/-- Decimal notation of a natural number (JS number-to-string for the
integral viewport sizes). -/
def toDecimal (n : Nat) : List Char :=
  if n < 10 then [Char.ofNat (48 + n)]
  else toDecimal (n / 10) ++ [Char.ofNat (48 + n % 10)]
  termination_by n
  decreasing_by exact Nat.div_lt_self (by omega) (by omega)

/-- JSON booleans. -/
def jsonBool (b : Bool) : List Char :=
  if b then "true".data else "false".data

/-- The literal `device` strings of the schema. -/
def deviceName : Device → String
  | .desktop => "desktop"
  | .tablet => "tablet"
  | .mobile => "mobile"

/-- The literal `waitFor` strings of the schema. -/
def waitName : WaitStrategy → String
  | .load => "load"
  | .domcontentloaded => "domcontentloaded"
  | .networkidle => "networkidle"

/-- Source: `JSON.stringify(normalized)` in `generateCacheKey`, for the
`normalized` object literal — keys in insertion order, `undefined` width and
height omitted, `timeout` never present. -/
def normalizedChars (r : ScreenshotRequest) : List Char :=
  "\x7b\"url\":\"".data ++ jsonEscape r.url.data ++ "\"".data ++
    (match r.width with
     | some w => ",\"width\":".data ++ toDecimal w
     | none => []) ++
    (match r.height with
     | some h => ",\"height\":".data ++ toDecimal h
     | none => []) ++
    ",\"fullPage\":".data ++ jsonBool r.fullPage ++
    ",\"darkMode\":".data ++ jsonBool r.darkMode ++
    ",\"blockAds\":".data ++ jsonBool r.blockAds ++
    ",\"device\":\"".data ++ (deviceName r.device).data ++
    "\",\"waitFor\":\"".data ++ (waitName r.waitFor).data ++ "\"\x7d".data

/-- UTF-8 bytes of one character (Node hashes the UTF-8 encoding). -/
def utf8Bytes (c : Char) : List Nat :=
  let n := c.toNat
  if n < 0x80 then [n]
  else if n < 0x800 then [0xC0 + n / 0x40, 0x80 + n % 0x40]
  else if n < 0x10000 then
    [0xE0 + n / 0x1000, 0x80 + (n / 0x40) % 0x40, 0x80 + n % 0x40]
  else
    [0xF0 + n / 0x40000, 0x80 + (n / 0x1000) % 0x40, 0x80 + (n / 0x40) % 0x40, 0x80 + n % 0x40]

/-- UTF-8 encoding of a character list. -/
def utf8Encode : List Char → List Nat
  | [] => []
  | c :: rest => utf8Bytes c ++ utf8Encode rest

/-- Right rotation of a 32-bit word held as a `Nat` below `2 ^ 32`. -/
def rotr32 (n x : Nat) : Nat :=
  (x / 2 ^ n + (x % 2 ^ n) * 2 ^ (32 - n)) % 2 ^ 32

/-- SHA-256 round constants. -/
def sha256K : List Nat :=
  [1116352408, 1899447441, 3049323471, 3921009573, 961987163, 1508970993, 2453635748, 2870763221] ++
  [3624381080, 310598401, 607225278, 1426881987, 1925078388, 2162078206, 2614888103, 3248222580] ++
  [3835390401, 4022224774, 264347078, 604807628, 770255983, 1249150122, 1555081692, 1996064986] ++
  [2554220882, 2821834349, 2952996808, 3210313671, 3336571891, 3584528711, 113926993, 338241895] ++
  [666307205, 773529912, 1294757372, 1396182291, 1695183700, 1986661051, 2177026350, 2456956037] ++
  [2730485921, 2820302411, 3259730800, 3345764771, 3516065817, 3600352804, 4094571909, 275423344] ++
  [430227734, 506948616, 659060556, 883997877, 958139571, 1322822218, 1537002063, 1747873779] ++
  [1955562222, 2024104815, 2227730452, 2361852424, 2428436474, 2756734187, 3204031479, 3329325298]

/-- SHA-256 initial hash state. -/
def sha256H0 : List Nat :=
  [0x6a09e667, 0xbb67ae85, 0x3c6ef372, 0xa54ff53a, 0x510e527f, 0x9b05688c, 0x1f83d9ab,
   0x5be0cd19]

/-- SHA-256 padding: append `0x80`, zero bytes to 56 mod 64, then the bit
length as 8 big-endian bytes. -/
def sha256Pad (msg : List Nat) : List Nat :=
  let len := msg.length
  let zeroCount := (64 - (len + 9) % 64) % 64
  msg ++ [0x80] ++ List.replicate zeroCount 0 ++
    (List.range 8).map (fun i => len * 8 / 2 ^ (8 * (7 - i)) % 256)

/-- Split a byte list into 64-byte blocks. -/
def sha256Chunks (l : List Nat) : List (List Nat) :=
  if _h : l = [] then [] else l.take 64 :: sha256Chunks (l.drop 64)
  termination_by l.length
  decreasing_by
    simp only [List.length_drop]
    have : l.length ≠ 0 := fun hh => _h (List.eq_nil_of_length_eq_zero hh)
    omega

/-- Big-endian combination of bytes into 32-bit words. -/
def bytesToWords : List Nat → List Nat
  | b0 :: b1 :: b2 :: b3 :: rest =>
    (((b0 * 256 + b1) * 256 + b2) * 256 + b3) :: bytesToWords rest
  | _ => []

/-- Message-schedule sigma functions. -/
def smallSigma0 (x : Nat) : Nat := rotr32 7 x ^^^ rotr32 18 x ^^^ x / 2 ^ 3

/-- Message-schedule sigma functions. -/
def smallSigma1 (x : Nat) : Nat := rotr32 17 x ^^^ rotr32 19 x ^^^ x / 2 ^ 10

/-- Compression sigma functions. -/
def bigSigma0 (x : Nat) : Nat := rotr32 2 x ^^^ rotr32 13 x ^^^ rotr32 22 x

/-- Compression sigma functions. -/
def bigSigma1 (x : Nat) : Nat := rotr32 6 x ^^^ rotr32 11 x ^^^ rotr32 25 x

/-- Append the next scheduled word. -/
def scheduleStep (w : List Nat) : List Nat :=
  let n := w.length
  w ++ [(w.getD (n - 16) 0 + smallSigma0 (w.getD (n - 15) 0) + w.getD (n - 7) 0 +
    smallSigma1 (w.getD (n - 2) 0)) % 2 ^ 32]

/-- Extend the 16 block words by `k` scheduled words. -/
def buildSchedule (w : List Nat) : Nat → List Nat
  | 0 => w
  | k + 1 => buildSchedule (scheduleStep w) k

/-- One SHA-256 compression round on the 8-word working state. -/
def compressRound (k w : Nat) (st : List Nat) : List Nat :=
  match st with
  | [a, b, c, d, e, f, g, h] =>
    let ch := (e &&& f) ^^^ ((2 ^ 32 - 1 - e) &&& g)
    let maj := (a &&& b) ^^^ (a &&& c) ^^^ (b &&& c)
    let t1 := (h + bigSigma1 e + ch + k + w) % 2 ^ 32
    let t2 := (bigSigma0 a + maj) % 2 ^ 32
    [(t1 + t2) % 2 ^ 32, a, b, c, (d + t1) % 2 ^ 32, e, f, g]
  | other => other

/-- Compress one 64-byte block into the running hash state. -/
def compressBlock (st : List Nat) (block : List Nat) : List Nat :=
  let w := buildSchedule (bytesToWords block) 48
  let final := (List.zip sha256K w).foldl (fun s p => compressRound p.1 p.2 s) st
  (List.zip st final).map (fun p => (p.1 + p.2) % 2 ^ 32)

/-- SHA-256 digest of a byte list, as 8 words. -/
def sha256Words (msg : List Nat) : List Nat :=
  (sha256Chunks (sha256Pad msg)).foldl compressBlock sha256H0

/-- Fixed-width lowercase hex of a 32-bit word. -/
def hexWord (w : Nat) : List Char :=
  [hexDigit (w / 16 ^ 7 % 16), hexDigit (w / 16 ^ 6 % 16), hexDigit (w / 16 ^ 5 % 16),
   hexDigit (w / 16 ^ 4 % 16), hexDigit (w / 16 ^ 3 % 16), hexDigit (w / 16 ^ 2 % 16),
   hexDigit (w / 16 % 16), hexDigit (w % 16)]

/-- SHA-256 digest as a 64-character lowercase hex character list
(`crypto.createHash('sha256').update(str).digest('hex')`). -/
def sha256Hex (msg : List Nat) : List Char :=
  ((sha256Words msg).map hexWord).flatten

/-- Source: `generateCacheKey` — SHA-256 of the canonical encoding, first 16
hex characters (`hash.substring(0, 16)`). -/
def generateCacheKey (r : ScreenshotRequest) : String :=
  ⟨(sha256Hex (utf8Encode (normalizedChars r))).take 16⟩

/-- Agreement of the eight cache-relevant fields — everything except
`timeout`. -/
def sameKeyFields (r1 r2 : ScreenshotRequest) : Prop :=
  r1.url = r2.url ∧ r1.width = r2.width ∧ r1.height = r2.height ∧
    r1.fullPage = r2.fullPage ∧ r1.darkMode = r2.darkMode ∧ r1.blockAds = r2.blockAds ∧
    r1.device = r2.device ∧ r1.waitFor = r2.waitFor

instance (r1 r2 : ScreenshotRequest) : Decidable (sameKeyFields r1 r2) := by
  unfold sameKeyFields
  infer_instance

/-! ## Decoding the canonical encoding

To show that any change in the eight cache-relevant fields changes the
canonical pre-hash encoding, we give a decoder and prove it a left inverse of
`normalizedChars`.  (The remaining gap to the truncated digest is exactly a
SHA-256 collision, the claim's "with overwhelming probability".) -/

/-- Value of a lowercase hexadecimal digit character. -/
def hexVal (c : Char) : Nat :=
  if c.toNat ≤ 57 then c.toNat - 48 else c.toNat - 87

/-- Inverse of the short JSON escapes. -/
def unescapeChar : Char → Option Char
  | '"' => some '"'
  | '\\' => some '\\'
  | 'b' => some (Char.ofNat 8)
  | 't' => some (Char.ofNat 9)
  | 'n' => some (Char.ofNat 10)
  | 'f' => some (Char.ofNat 12)
  | 'r' => some (Char.ofNat 13)
  | '/' => some '/'
  | _ => none

/-- Parse a JSON string body up to its closing quote, returning the decoded
characters and the remainder after the quote. -/
def parseStr : List Char → Option (List Char × List Char)
  | [] => none
  | c :: rest =>
    if c = '"' then some ([], rest)
    else if c = '\\' then
      match rest with
      | 'u' :: h1 :: h2 :: h3 :: h4 :: r =>
        (parseStr r).map (fun p =>
          (Char.ofNat (((hexVal h1 * 16 + hexVal h2) * 16 + hexVal h3) * 16 + hexVal h4)
            :: p.1, p.2))
      | e :: r =>
        match unescapeChar e with
        | some ch => (parseStr r).map (fun p => (ch :: p.1, p.2))
        | none => none
      | [] => none
    else (parseStr rest).map (fun p => (c :: p.1, p.2))
  termination_by l => l.length
  decreasing_by all_goals simp +arith

/-- Consume decimal digits into an accumulator. -/
def parseDigitsGo : Nat → List Char → Nat × List Char
  | a, [] => (a, [])
  | a, c :: r => if c.isDigit then parseDigitsGo (a * 10 + digitVal c) r else (a, c :: r)

/-- Parse a nonempty run of decimal digits. -/
def parseNat : List Char → Option (Nat × List Char)
  | [] => none
  | c :: r => if c.isDigit then some (parseDigitsGo 0 (c :: r)) else none

/-- Consume an expected literal character sequence. -/
def expectChars : List Char → List Char → Option (List Char)
  | [], l => some l
  | _ :: _, [] => none
  | c :: p, x :: l => if x = c then expectChars p l else none

/-- Parse an optional numeric field: when the key prefix is present, its
number must follow; otherwise nothing is consumed. -/
def decodeOptNum (pre l : List Char) : Option (Option Nat × List Char) :=
  match expectChars pre l with
  | some r =>
    match parseNat r with
    | some (n, r2) => some (some n, r2)
    | none => none
  | none => some (none, l)

/-- Parse a JSON boolean literal. -/
def decodeBool (l : List Char) : Option (Bool × List Char) :=
  match expectChars "true".data l with
  | some r => some (true, r)
  | none =>
    match expectChars "false".data l with
    | some r => some (false, r)
    | none => none

/-- Parse a device name literal. -/
def decodeDevice (l : List Char) : Option (Device × List Char) :=
  match expectChars "desktop".data l with
  | some r => some (.desktop, r)
  | none =>
    match expectChars "tablet".data l with
    | some r => some (.tablet, r)
    | none =>
      match expectChars "mobile".data l with
      | some r => some (.mobile, r)
      | none => none

/-- Parse a wait-strategy name literal. -/
def decodeWait (l : List Char) : Option (WaitStrategy × List Char) :=
  match expectChars "load".data l with
  | some r => some (.load, r)
  | none =>
    match expectChars "domcontentloaded".data l with
    | some r => some (.domcontentloaded, r)
    | none =>
      match expectChars "networkidle".data l with
      | some r => some (.networkidle, r)
      | none => none

/-- The eight cache-relevant fields of a request. -/
structure KeyFields where
  url : List Char
  width : Option Nat
  height : Option Nat
  fullPage : Bool
  darkMode : Bool
  blockAds : Bool
  device : Device
  waitFor : WaitStrategy
  deriving Repr, DecidableEq

/-- The eight cache-relevant fields of a request. -/
def keyFields (r : ScreenshotRequest) : KeyFields :=
  ⟨r.url.data, r.width, r.height, r.fullPage, r.darkMode, r.blockAds, r.device, r.waitFor⟩

/-- Decoder for the canonical encoding produced by `normalizedChars`. -/
def decodeNorm (l : List Char) : Option KeyFields :=
  match expectChars "\x7b\"url\":\"".data l with
  | none => none
  | some r0 =>
  match parseStr r0 with
  | none => none
  | some (url, r1) =>
  match decodeOptNum ",\"width\":".data r1 with
  | none => none
  | some (w, r2) =>
  match decodeOptNum ",\"height\":".data r2 with
  | none => none
  | some (h, r3) =>
  match expectChars ",\"fullPage\":".data r3 with
  | none => none
  | some r4 =>
  match decodeBool r4 with
  | none => none
  | some (fp, r5) =>
  match expectChars ",\"darkMode\":".data r5 with
  | none => none
  | some r6 =>
  match decodeBool r6 with
  | none => none
  | some (dm, r7) =>
  match expectChars ",\"blockAds\":".data r7 with
  | none => none
  | some r8 =>
  match decodeBool r8 with
  | none => none
  | some (ba, r9) =>
  match expectChars ",\"device\":\"".data r9 with
  | none => none
  | some r10 =>
  match decodeDevice r10 with
  | none => none
  | some (dev, r11) =>
  match expectChars "\",\"waitFor\":\"".data r11 with
  | none => none
  | some r12 =>
  match decodeWait r12 with
  | none => none
  | some (wf, r13) =>
  match r13 with
  | ['"', '\x7d'] => some ⟨url, w, h, fp, dm, ba, dev, wf⟩
  | _ => none

/-! ## Error classifier (`middleware/errorHandler.ts` and `index.ts`)

Both files hold an ordered table of (pattern, code, status, message) scanned
first-match-wins; every pattern in both tables is a case-insensitive literal
regex, i.e. a case-insensitive substring test. -/

inductive ErrorCode where
  | VALIDATION_ERROR
  | RATE_LIMIT_EXCEEDED
  | SCREENSHOT_FAILED
  | TIMEOUT
  | INVALID_URL
  | BLOCKED_URL
  | NOT_FOUND
  | INTERNAL_ERROR
  deriving Repr, DecidableEq

structure ErrorPattern where
  pattern : String
  code : ErrorCode
  status : Nat
  message : Option String
  deriving Repr, DecidableEq

structure ClassifiedError where
  code : ErrorCode
  status : Nat
  message : String
  deriving Repr, DecidableEq

/-- Source: `ERROR_PATTERNS` of `middleware/errorHandler.ts` (8 entries). -/
def ERROR_PATTERNS : List ErrorPattern :=
  [⟨"timeout", .TIMEOUT, 504, some "The page took too long to load"⟩,
   ⟨"net::ERR_NAME_NOT_RESOLVED", .INVALID_URL, 400, some "Could not resolve the domain name"⟩,
   ⟨"net::ERR_CONNECTION_REFUSED", .SCREENSHOT_FAILED, 502,
     some "Connection refused by the target server"⟩,
   ⟨"net::ERR_SSL", .SCREENSHOT_FAILED, 502, some "SSL/TLS error when connecting to the target"⟩,
   ⟨"net::ERR_CERT", .SCREENSHOT_FAILED, 502,
     some "Certificate error when connecting to the target"⟩,
   ⟨"Navigation failed", .SCREENSHOT_FAILED, 502, some "Failed to navigate to the page"⟩,
   ⟨"Protocol error", .INTERNAL_ERROR, 500, some "Browser communication error"⟩,
   ⟨"blocked", .BLOCKED_URL, 403, some "This URL is blocked for security reasons"⟩]

/-- Source: `ERROR_PATTERNS` of `index.ts` (5 entries), the table actually
wired into the running app through `app.onError`. -/
def ERROR_PATTERNS_MAIN : List ErrorPattern :=
  [⟨"timeout", .TIMEOUT, 504, some "The page took too long to load"⟩,
   ⟨"net::ERR_NAME_NOT_RESOLVED", .INVALID_URL, 400, some "Could not resolve the domain name"⟩,
   ⟨"net::ERR_CONNECTION_REFUSED", .SCREENSHOT_FAILED, 502,
     some "Connection refused by the target server"⟩,
   ⟨"net::ERR_SSL", .SCREENSHOT_FAILED, 502, some "SSL/TLS error when connecting to the target"⟩,
   ⟨"Navigation failed", .SCREENSHOT_FAILED, 502, some "Failed to navigate to the page"⟩]

/-- First-match-wins scan of a pattern table; on no match the default
`INTERNAL_ERROR`/500 with the generic message is returned.  The JS code reads
`message: message || errorMessage`, hence the `Option.getD errorMessage`. -/
def classifyWith (table : List ErrorPattern) (errorMessage : String) : ClassifiedError :=
  match table with
  | [] => ⟨.INTERNAL_ERROR, 500, "An unexpected error occurred"⟩
  | e :: rest =>
    if ciContains errorMessage e.pattern then ⟨e.code, e.status, e.message.getD errorMessage⟩
    else classifyWith rest errorMessage

/-- Source: `classifyError` of `middleware/errorHandler.ts`. -/
def classifyError (errorMessage : String) : ClassifiedError :=
  classifyWith ERROR_PATTERNS errorMessage

/-- Source: the classification branch of `app.onError` in `index.ts`. -/
def onErrorClassify (errorMessage : String) : ClassifiedError :=
  classifyWith ERROR_PATTERNS_MAIN errorMessage

/-! ## Screenshot route pipeline (`index.ts` wiring and `routes/screenshot.ts`)

`app.use('/screenshot', rateLimiter)` runs the rate limiter before the route
handler: `checkRateLimit`, then — when allowed — `recordRequest`, then
`next()` into the handler, which validates, consults the cache, and only on a
miss runs the capture, saves the file and writes the cache.  `captureResult`
stands for the outcome of the `captureScreenshot` call on the miss path;
`captures` counts how many times that call ran.  A capture error propagates
out of the handler (nothing is cached) and is classified by `app.onError`. -/

structure ScreenshotMetadata where
  id : String
  url : String
  width : Nat
  height : Nat
  fullPage : Bool
  fileSize : Nat
  capturedAt : Int
  expiresAt : Int
  deriving Repr, DecidableEq

structure SvcState where
  rate : List Int
  cache : CacheStore ScreenshotMetadata
  stored : List String
  captures : Nat
  deriving Repr, DecidableEq

inductive PipelineOutcome where
  | rateLimited (check : RateCheck)
  | validationError
  | cacheHit (m : ScreenshotMetadata)
  | captured (m : ScreenshotMetadata)
  | captureError (e : ClassifiedError)
  deriving Repr, DecidableEq

/-- One request through rate limiter and screenshot route, for a single
client (`st.rate` is that client's timestamp list). -/
def screenshotPipeline (cfg : RateConfig) (ttl now : Int) (st : SvcState)
    (body : RequestBody) (screenshotId : String)
    (captureResult : Except String (List Nat)) : PipelineOutcome × SvcState :=
  let chk := checkRateLimit cfg now st.rate
  if chk.allowed = false then (.rateLimited chk, st)
  else
    let st1 : SvcState := {st with rate := recordRequest cfg now st.rate}
    if validateBody body = false then (.validationError, st1)
    else
      let req := body.req
      let cacheKey := generateCacheKey req
      match getCache now st1.cache cacheKey with
      | (some m, cache1) => (.cacheHit m, {st1 with cache := cache1})
      | (none, cache1) =>
        let st2 : SvcState := {st1 with cache := cache1, captures := st1.captures + 1}
        match captureResult with
        | .error e => (.captureError (onErrorClassify e), st2)
        | .ok buf =>
          let width := req.width.getD (deviceWidth req.device)
          let height := req.height.getD (deviceHeight req.device)
          let m : ScreenshotMetadata :=
            ⟨screenshotId, req.url, width, height, req.fullPage, buf.length, now, now + ttl⟩
          (.captured m,
            {st2 with
              cache := setCache ttl now st2.cache cacheKey m
              stored := st2.stored ++ [screenshotId]})

/-! ## Singleton browser manager (`services/browser.ts`, `getBrowser`)

JS is single-threaded: every synchronous section between awaits runs
atomically.  The relevant atomic sections of `getBrowser` are (a) a caller
arriving — it checks `browser && browser.isConnected()`, then `browserLock`,
and either returns the live handle, joins the pending launch attempt, or
starts a new attempt (setting `browserLock` and discarding any stale
handle), and (b) a launch attempt completing — success stores the handle and
clears the lock; failure leaves `browser` null and clears the lock (the
`finally`).  `crash` models the external engine dropping the connection.
Attempt ids are allocated from `nextId`; `started`/`finished` count launch
operations begun and completed. -/

structure BrowserState where
  browser : Option (Nat × Bool)
  lock : Option Nat
  nextId : Nat
  started : Nat
  finished : Nat
  deriving Repr, DecidableEq

inductive AcqRes where
  | cached (h : Nat)
  | joined (a : Nat)
  deriving Repr, DecidableEq

inductive BrowserEv where
  | arrive
  | completeOk
  | completeFail
  | crash
  deriving Repr, DecidableEq

def browserInit : BrowserState := ⟨none, none, 0, 0, 0⟩

/-- One atomic event of the browser manager. -/
def browserStep (s : BrowserState) : BrowserEv → BrowserState × List AcqRes
  | .arrive =>
    match s.browser with
    | some (h, true) => (s, [.cached h])
    | _ =>
      match s.lock with
      | some a => (s, [.joined a])
      | none =>
        (⟨none, some s.nextId, s.nextId + 1, s.started + 1, s.finished⟩, [.joined s.nextId])
  | .completeOk =>
    match s.lock with
    | some a =>
      ({s with browser := some (a, true), lock := none, finished := s.finished + 1}, [])
    | none => (s, [])
  | .completeFail =>
    match s.lock with
    | some _ => ({s with browser := none, lock := none, finished := s.finished + 1}, [])
    | none => (s, [])
  | .crash => ({s with browser := s.browser.map (fun p => (p.1, false))}, [])

/-- Run a sequence of events, collecting every caller's acquisition result. -/
def browserRun (s : BrowserState) : List BrowserEv → BrowserState × List AcqRes
  | [] => (s, [])
  | e :: rest =>
    let s1 := browserStep s e
    let s2 := browserRun s1.1 rest
    (s2.1, s1.2 ++ s2.2)

/-- No connected handle exists. -/
def noLiveHandle (s : BrowserState) : Bool :=
  match s.browser with
  | some (_, true) => false
  | _ => true

/-- Bookkeeping invariant of the browser manager: the launches started exceed
the launches finished exactly by the in-flight launch (if any), and attempt
ids held anywhere were allocated from `nextId`. -/
def browserInv (s : BrowserState) : Prop :=
  s.started = s.finished + (if s.lock.isSome then 1 else 0) ∧
  (∀ a, s.lock = some a → a < s.nextId) ∧
  (∀ h b, s.browser = some (h, b) → h < s.nextId)

/-! ## Dotted-quad hosts as C9 words them

C9 speaks of "a dotted-quad address in 10.0.0.0/8, 172.16.0.0/12, or
192.168.0.0/16"; these definitions build such a hostname from its four digit
groups so the claim can quantify over all of them. -/

/-- Characters of a digit group. -/
def digitsToChars (l : List Nat) : List Char :=
  l.map (fun d => Char.ofNat (48 + d))

/-- Decimal value of a digit group (`Number` on the regex group). -/
def digitsVal (l : List Nat) : Nat :=
  l.foldl (fun a d => a * 10 + d) 0

/-- A well-formed 1-to-3-digit group. -/
def goodDigits (l : List Nat) : Prop :=
  l ≠ [] ∧ l.length ≤ 3 ∧ ∀ d ∈ l, d < 10

/-- The dotted-quad hostname built from four digit groups. -/
def quadHost (l1 l2 l3 l4 : List Nat) : String :=
  ⟨digitsToChars l1 ++ '.' :: (digitsToChars l2 ++ '.' :: (digitsToChars l3 ++ '.' ::
    digitsToChars l4))⟩

/-! ## Ad blocking (`utils/adblock.ts`, `shouldBlockUrl`)

`shouldBlockUrl` wraps everything in `try { new URL(url) ... } catch
{ return false }`.  A resource URL is modelled as the raw string plus the
hostname `new URL` yields when parsing succeeds (`none` when it throws). -/

/-- Source: the `AD_DOMAINS` set. -/
def AD_DOMAINS : List String :=
  ["doubleclick.net", "googlesyndication.com", "googleadservices.com", "google-analytics.com",
   "googletagmanager.com", "googletagservices.com", "pagead2.googlesyndication.com",
   "facebook.net", "fbcdn.net", "connect.facebook.net",
   "ads-twitter.com", "analytics.twitter.com",
   "amazon-adsystem.com", "aax.amazon-adsystem.com",
   "adnxs.com", "adsrvr.org", "adform.net", "criteo.com", "criteo.net", "outbrain.com",
   "taboola.com", "pubmatic.com", "rubiconproject.com", "openx.net", "casalemedia.com",
   "moatads.com", "quantserve.com", "scorecardresearch.com", "serving-sys.com",
   "hotjar.com", "mixpanel.com", "amplitude.com", "segment.io", "segment.com",
   "optimizely.com", "crazyegg.com", "mouseflow.com", "fullstory.com", "clarity.ms",
   "popads.net", "popcash.net", "propellerads.com",
   "ads.linkedin.com", "ad.doubleclick.net"]

/-- Source: the `AD_URL_PATTERNS` regexes — all case-insensitive literals. -/
def AD_URL_PATTERNS : List String :=
  ["/ads/", "/ad/", "/advert", "/banner", "/sponsor", "/tracking", "/analytics.js",
   "/gtag/js", "/pixel/", "/beacon"]

/-- A resource request URL: the raw string (the regexes run on it) and the
hostname produced by `new URL` when parsing succeeds. -/
structure ResourceUrl where
  raw : String
  parsedHost : Option String
  deriving Repr, DecidableEq

/-- JS `s.endsWith(suf)`. -/
def endsWithStr (s suf : String) : Bool :=
  decide (suf.data <:+ s.data)

/-- Source: `shouldBlockUrl` — on parse failure return `false`; otherwise
block on exact domain match, subdomain match (`hostname.endsWith('.' + d)`),
or a raw-URL pattern match. -/
def shouldBlockUrl (u : ResourceUrl) : Bool :=
  match u.parsedHost with
  | none => false
  | some h0 =>
    let hostname := lowerStr h0
    if AD_DOMAINS.contains hostname then true
    else if AD_DOMAINS.any (fun d => endsWithStr hostname ("." ++ d)) then true
    else if AD_URL_PATTERNS.any (fun p => ciContains u.raw p) then true
    else false

/-- C10's wording of the blocking condition, as a proposition: the URL parses
and its hostname equals a listed domain, or is a subdomain of one, or the URL
matches one of the listed ad-path patterns (case-insensitively). -/
def blockedBySpecC10 (u : ResourceUrl) : Prop :=
  ∃ h0, u.parsedHost = some h0 ∧
    (lowerStr h0 ∈ AD_DOMAINS ∨
     (∃ d ∈ AD_DOMAINS, ∃ pre : List Char, pre ++ ('.' :: d.data) = (lowerStr h0).data) ∨
     (∃ p ∈ AD_URL_PATTERNS, ∃ l1 l2 : List Char,
       l1 ++ (lowerStr p).data ++ l2 = (lowerStr u.raw).data))

/-! ## Theorems -/

/-- Folding `min` over a list yields a member that is a lower bound
(`Math.min(...timestamps)` is the oldest timestamp). -/
theorem foldl_min_is_least (x : Int) (xs : List Int) :
    (xs.foldl min x) ∈ x :: xs ∧ ∀ y ∈ x :: xs, xs.foldl min x ≤ y := by
  induction xs generalizing x with
  | nil => simp
  | cons a as ih =>
    have h := ih (min x a)
    have hfold : (a :: as).foldl min x = as.foldl min (min x a) := rfl
    constructor
    · rw [hfold]
      rcases List.mem_cons.mp h.1 with h1 | h1
      · rcases min_choice x a with hc | hc
        · rw [h1, hc]; exact List.mem_cons_self _ _
        · rw [h1, hc]; exact List.mem_cons_of_mem _ (List.mem_cons_self _ _)
      · exact List.mem_cons_of_mem _ (List.mem_cons_of_mem _ h1)
    · intro y hy
      rw [hfold]
      rcases List.mem_cons.mp hy with rfl | hy'
      · exact le_trans (h.2 _ (List.mem_cons_self _ _)) (min_le_left _ _)
      · rcases List.mem_cons.mp hy' with rfl | hy2
        · exact le_trans (h.2 _ (List.mem_cons_self _ _)) (min_le_right _ _)
        · exact h.2 _ (List.mem_cons_of_mem _ hy2)

/-- C2 counterexample: with the default TTL (3600000 ms), an entry written at
time 0 has expiry 3600000, and `getCache` performed exactly at the expiry
instant still returns the data even though `now < expiresAt` fails — the
claim's "live exactly when now < expiry" is wrong at the boundary (the code
expires only when `now > expiresAt`). -/
theorem c2_cache_claim_counterexample :
    (getCache 3600000 (setCache 3600000 0 ([] : CacheStore Nat) "k" 7) "k").1 = some 7 ∧
    ¬ ((3600000 : Int) < 0 + 3600000) := by
  constructor
  · rfl
  · decide

/-- C2 (amended): after `setCache` at time `t`, a `getCache` at any time
`tg ≤ t + ttl` returns the stored data; at any time `tg > t + ttl` it returns
`none` and deletes the binding, and after `getCacheStats` the key no longer
appears in the returned key list.  An entry is live exactly when
`now ≤ expiry` (the code expires strictly after the expiry instant). -/
theorem c2_cache_roundtrip_and_expiry {α : Type} (ttl t tg : Int) (c : CacheStore α)
    (key : String) (d : α) :
    (tg ≤ t + ttl → (getCache tg (setCache ttl t c key d) key).1 = some d) ∧
    (t + ttl < tg →
      (getCache tg (setCache ttl t c key d) key).1 = none ∧
      ∀ p ∈ (getCache tg (setCache ttl t c key d) key).2, p.1 ≠ key) ∧
    (t + ttl < tg → key ∉ (getCacheStats tg (setCache ttl t c key d)).keys) := by
  have hfind : (setCache ttl t c key d).find? (fun p => p.1 == key) =
      some (key, ⟨d, t, t + ttl⟩) := by
    simp [setCache]
  refine ⟨?_, ?_, ?_⟩
  · intro h
    have hcond : ¬ (tg > t + ttl) := by omega
    simp [getCache, hfind, hcond]
  · intro h
    have hcond : tg > t + ttl := h
    refine ⟨by simp [getCache, hfind, hcond], ?_⟩
    intro p hp
    simp only [getCache, hfind, if_pos hcond] at hp
    have := (List.mem_filter.mp hp).2
    simpa using this
  · intro h
    intro hmem
    simp only [getCacheStats, setCache] at hmem
    rw [List.filter_cons_of_neg (by simp; omega)] at hmem
    simp only [List.mem_map] at hmem
    rcases hmem with ⟨p, hp, hp3⟩
    have := (List.mem_filter.mp (List.mem_filter.mp hp).1).2
    simp only [decide_eq_true_eq] at this
    exact this hp3

/-- Witness for `c2_cache_roundtrip_and_expiry` at concrete inputs. -/
theorem c2_cache_roundtrip_and_expiry_witness :
    ((100 : Int) ≤ 0 + 3600000 ∧
      (getCache 100 (setCache 3600000 0 ([] : CacheStore Nat) "k" 7) "k").1 = some 7) ∧
    ((0 : Int) + 3600000 < 4000000 ∧
      (getCache 4000000 (setCache 3600000 0 ([] : CacheStore Nat) "k" 7) "k").1 = none ∧
      "k" ∉ (getCacheStats 4000000 (setCache 3600000 0 ([] : CacheStore Nat) "k" 7)).keys) := by
  refine ⟨⟨by decide, ?_⟩, ⟨by decide, ?_, ?_⟩⟩
  · exact (c2_cache_roundtrip_and_expiry 3600000 0 100 [] "k" 7).1 (by decide)
  · exact ((c2_cache_roundtrip_and_expiry 3600000 0 4000000 [] "k" 7).2.1 (by decide)).1
  · exact (c2_cache_roundtrip_and_expiry 3600000 0 4000000 [] "k" 7).2.2 (by decide)

/-- C3 counterexample: a timestamp recorded at time 0, checked at
`now = windowMs = 3600000` with `max = 10`.  The code's pruning
(`ts > windowStart`) drops the timestamp, giving `remaining = 10` and
`resetIn = 3600000`; the claim's pruning ("discard only strictly older than
`now − windowSize`") keeps it, predicting `remaining = 9` and `resetInMs = 0`. -/
theorem c3_admission_claim_counterexample :
    checkRateLimit ⟨3600000, 10⟩ 3600000 [0] ≠ checkPerClaimC3 ⟨3600000, 10⟩ 3600000 [0] ∧
    (checkRateLimit ⟨3600000, 10⟩ 3600000 [0]).remaining = 10 ∧
    (checkPerClaimC3 ⟨3600000, 10⟩ 3600000 [0]).remaining = 9 := by
  refine ⟨by decide, by decide, by decide⟩

/-- C3 (amended): `check` discards every timestamp at or older than
`now − windowSize` (only strictly newer ones survive); with `count` the size
of what remains, `allowed = (count < max)`, `remaining = max − count` floored
at 0, and `resetInMs = oldest surviving timestamp + windowSize − now` when
one survives, else the full `windowSize`.  Consequently a check finding
`max` timestamps inside the window is disallowed, and a check after the
window has fully elapsed is allowed again. -/
theorem c3_admission_check (cfg : RateConfig) (now : Int) (ts : List Int) :
    ((checkRateLimit cfg now ts).allowed = true ↔
      ((cleanupTimestamps ts (now - cfg.windowMs)).length : Int) < cfg.maxRequests) ∧
    (checkRateLimit cfg now ts).remaining =
      max 0 (cfg.maxRequests - (cleanupTimestamps ts (now - cfg.windowMs)).length) ∧
    (cleanupTimestamps ts (now - cfg.windowMs) = [] →
      (checkRateLimit cfg now ts).resetIn = cfg.windowMs) ∧
    (cleanupTimestamps ts (now - cfg.windowMs) ≠ [] →
      ∃ m, m ∈ cleanupTimestamps ts (now - cfg.windowMs) ∧
        (∀ y ∈ cleanupTimestamps ts (now - cfg.windowMs), m ≤ y) ∧
        (checkRateLimit cfg now ts).resetIn = m + cfg.windowMs - now) ∧
    ((∀ u ∈ ts, now - cfg.windowMs < u) → cfg.maxRequests ≤ ts.length →
      (checkRateLimit cfg now ts).allowed = false) ∧
    ((∀ u ∈ ts, u ≤ now - cfg.windowMs) → 0 < cfg.maxRequests →
      (checkRateLimit cfg now ts).allowed = true) := by
  refine ⟨?_, ?_, ?_, ?_, ?_, ?_⟩
  · simp [checkRateLimit]
  · simp [checkRateLimit]
  · intro h
    simp [checkRateLimit, h]
  · intro h
    rcases hts : cleanupTimestamps ts (now - cfg.windowMs) with _ | ⟨x, xs⟩
    · exact absurd hts h
    · refine ⟨xs.foldl min x, ?_, ?_, ?_⟩
      · exact (foldl_min_is_least x xs).1
      · exact (foldl_min_is_least x xs).2
      · simp [checkRateLimit, hts]
  · intro hin hlen
    have hclean : cleanupTimestamps ts (now - cfg.windowMs) = ts := by
      simp only [cleanupTimestamps]
      exact List.filter_eq_self.mpr (fun a ha => by simpa using hin a ha)
    simp [checkRateLimit, hclean]
    omega
  · intro hout hmax
    have hclean : cleanupTimestamps ts (now - cfg.windowMs) = [] := by
      simp only [cleanupTimestamps]
      exact List.filter_eq_nil_iff.mpr (fun a ha => by simpa using not_lt.mpr (hout a ha))
    simp [checkRateLimit, hclean]
    omega

/-- Witness for `c3_admission_check`: a full window of `max = 2` timestamps is
disallowed; a fully elapsed window is allowed again. -/
theorem c3_admission_check_witness :
    ((∀ u ∈ [(7 : Int), 8], (10 : Int) - 5 < u) ∧ (2 : Int) ≤ ([(7 : Int), 8]).length ∧
      (checkRateLimit ⟨5, 2⟩ 10 [7, 8]).allowed = false) ∧
    ((∀ u ∈ [(1 : Int)], u ≤ (10 : Int) - 5) ∧ ((0 : Int) < 2) ∧
      (checkRateLimit ⟨5, 2⟩ 10 [1]).allowed = true) := by
  refine ⟨⟨by decide, by decide, ?_⟩, ⟨by decide, by decide, ?_⟩⟩
  · exact (c3_admission_check ⟨5, 2⟩ 10 [7, 8]).2.2.2.2.1 (by decide) (by decide)
  · exact (c3_admission_check ⟨5, 2⟩ 10 [1]).2.2.2.2.2 (by decide) (by decide)

/-- Unfolding lemma for one iteration of the retry loop. -/
theorem captureLoop_step (f : Nat → AttemptOutcome × Bool) (fuel attempt : Nat) (browser : Bool)
    (lastErr : Option String) (evs : List RetryEv) (sts : List Bool) :
    captureLoop f (fuel + 1) attempt browser lastErr evs sts =
      (match (f attempt).1 with
       | .ok b => ⟨Except.ok b, attempt + 1, evs ++ [RetryEv.att attempt], sts ++ [browser]⟩
       | .err m =>
         if isRetryableMsg m then
           captureLoop f fuel (attempt + 1) false (some m)
             ((evs ++ [RetryEv.att attempt]) ++
               (if (f attempt).2 then [RetryEv.invalidate] else [])) (sts ++ [browser])
         else ⟨Except.error m, attempt + 1, evs ++ [RetryEv.att attempt], sts ++ [browser]⟩) :=
  rfl

/-- Appending the conditional invalidation event adds no attempt event. -/
theorem filter_att_append_inv (l : List RetryEv) (b : Bool) :
    (l ++ if b then [RetryEv.invalidate] else []).filter isAttEv = l.filter isAttEv := by
  cases b <;> simp [isAttEv]

/-- Variant of `filter_att_append_inv` for the doubly-guarded final
invalidation of a fuel-exhausted run. -/
theorem filter_att_append_inv2 (l : List RetryEv) (a b : Bool) :
    (l ++ if a then (if b then [RetryEv.invalidate] else []) else []).filter isAttEv =
      l.filter isAttEv := by
  cases a <;> cases b <;> simp [isAttEv]

/-- C4: the retry loop runs at most 3 attempts; attempt `i + 1` is run exactly
when attempt `i` failed with text matching the retry signals
(`closed` / `Target page` / `Protocol error`); the overall result is the
outcome of the last attempt run (so a non-retryable failure aborts at once and
a third retryable failure terminates with that error, with no 4th attempt);
when a shared handle existed at the failing attempt's end it is closed
(an `invalidate` event directly after the attempt), and every retry attempt
starts with no shared handle, forcing a fresh launch. -/
theorem c4_retry_policy (f : Nat → AttemptOutcome × Bool) (browser0 : Bool) :
    (captureScreenshot f browser0).attempts ≤ 3 ∧
    (captureScreenshot f browser0).attempts = retrySpecAttempts f ∧
    (captureScreenshot f browser0).result =
      (match (f ((captureScreenshot f browser0).attempts - 1)).1 with
       | .ok b => Except.ok b
       | .err m => Except.error m) ∧
    (∀ i, i + 1 < (captureScreenshot f browser0).attempts →
      ∃ m, (f i).1 = .err m ∧ isRetryableMsg m = true) ∧
    (captureScreenshot f browser0).events.filter isAttEv =
      (List.range (captureScreenshot f browser0).attempts).map RetryEv.att ∧
    (∀ i, i + 1 < (captureScreenshot f browser0).attempts → (f i).2 = true →
      ∃ l1 l2, (captureScreenshot f browser0).events =
        l1 ++ RetryEv.att i :: RetryEv.invalidate :: l2) ∧
    (∀ i, 0 < i → i < (captureScreenshot f browser0).attempts →
      (captureScreenshot f browser0).startStates.getD i true = false) := by
  rcases hf0 : f 0 with ⟨o0, c0⟩
  rcases o0 with buf0 | m0
  case _ =>
    have htr : captureScreenshot f browser0 =
        ⟨Except.ok buf0, 1, [RetryEv.att 0], [browser0]⟩ := by
      simp [captureScreenshot, captureLoop_step, hf0]
    have hA : (captureScreenshot f browser0).attempts = 1 := by rw [htr]
    have hR : (captureScreenshot f browser0).result = Except.ok buf0 := by rw [htr]
    have hE : (captureScreenshot f browser0).events = [RetryEv.att 0] := by rw [htr]
    refine ⟨by rw [hA]; omega, by rw [hA]; simp [retrySpecAttempts, hf0], ?_, ?_, ?_, ?_, ?_⟩
    · rw [hR, hA]; simp [hf0]
    · intro i hi; rw [hA] at hi; omega
    · rw [hE, hA]; simp [isAttEv, List.range_succ]
    · intro i hi; rw [hA] at hi; omega
    · intro i h0 hlt; rw [hA] at hlt; omega
  case _ =>
    rcases hr0 : isRetryableMsg m0 with _ | _
    case _ =>
      have htr : captureScreenshot f browser0 =
          ⟨Except.error m0, 1, [RetryEv.att 0], [browser0]⟩ := by
        simp [captureScreenshot, captureLoop_step, hf0, hr0]
      have hA : (captureScreenshot f browser0).attempts = 1 := by rw [htr]
      have hR : (captureScreenshot f browser0).result = Except.error m0 := by rw [htr]
      have hE : (captureScreenshot f browser0).events = [RetryEv.att 0] := by rw [htr]
      refine ⟨by rw [hA]; omega, by rw [hA]; simp [retrySpecAttempts, hf0, hr0], ?_, ?_, ?_,
        ?_, ?_⟩
      · rw [hR, hA]; simp [hf0]
      · intro i hi; rw [hA] at hi; omega
      · rw [hE, hA]; simp [isAttEv, List.range_succ]
      · intro i hi; rw [hA] at hi; omega
      · intro i h0 hlt; rw [hA] at hlt; omega
    case _ =>
      rcases hf1 : f 1 with ⟨o1, c1⟩
      rcases o1 with buf1 | m1
      case _ =>
        have htr : captureScreenshot f browser0 =
            ⟨Except.ok buf1, 2,
              ([RetryEv.att 0] ++ (if c0 then [RetryEv.invalidate] else [])) ++ [RetryEv.att 1],
              [browser0, false]⟩ := by
          simp [captureScreenshot, captureLoop_step, hf0, hr0, hf1]
        have hA : (captureScreenshot f browser0).attempts = 2 := by rw [htr]
        have hR : (captureScreenshot f browser0).result = Except.ok buf1 := by rw [htr]
        have hE : (captureScreenshot f browser0).events =
            ([RetryEv.att 0] ++ (if c0 then [RetryEv.invalidate] else [])) ++
              [RetryEv.att 1] := by rw [htr]
        have hS : (captureScreenshot f browser0).startStates = [browser0, false] := by rw [htr]
        refine ⟨by rw [hA]; omega, by rw [hA]; simp [retrySpecAttempts, hf0, hr0, hf1], ?_, ?_,
          ?_, ?_, ?_⟩
        · rw [hR, hA]; simp [hf1]
        · intro i hi; rw [hA] at hi
          have hi0 : i = 0 := by omega
          subst hi0
          exact ⟨m0, by simp [hf0], hr0⟩
        · rw [hE, hA]
          rw [List.filter_append, filter_att_append_inv]
          simp [isAttEv, List.range_succ]
        · intro i hi hb; rw [hA] at hi
          have hi0 : i = 0 := by omega
          subst hi0
          rw [hf0] at hb
          simp only at hb
          subst hb
          exact ⟨[], [RetryEv.att 1], by rw [hE]; simp⟩
        · intro i h0 hlt; rw [hA] at hlt
          have hi1 : i = 1 := by omega
          subst hi1
          rw [hS]
          simp
      case _ =>
        rcases hr1 : isRetryableMsg m1 with _ | _
        case _ =>
          have htr : captureScreenshot f browser0 =
              ⟨Except.error m1, 2,
                ([RetryEv.att 0] ++ (if c0 then [RetryEv.invalidate] else [])) ++
                  [RetryEv.att 1],
                [browser0, false]⟩ := by
            simp [captureScreenshot, captureLoop_step, hf0, hr0, hf1, hr1]
          have hA : (captureScreenshot f browser0).attempts = 2 := by rw [htr]
          have hR : (captureScreenshot f browser0).result = Except.error m1 := by rw [htr]
          have hE : (captureScreenshot f browser0).events =
              ([RetryEv.att 0] ++ (if c0 then [RetryEv.invalidate] else [])) ++
                [RetryEv.att 1] := by rw [htr]
          have hS : (captureScreenshot f browser0).startStates = [browser0, false] := by
            rw [htr]
          refine ⟨by rw [hA]; omega, by rw [hA]; simp [retrySpecAttempts, hf0, hr0, hf1, hr1],
            ?_, ?_, ?_, ?_, ?_⟩
          · rw [hR, hA]; simp [hf1]
          · intro i hi; rw [hA] at hi
            have hi0 : i = 0 := by omega
            subst hi0
            exact ⟨m0, by simp [hf0], hr0⟩
          · rw [hE, hA]
            rw [List.filter_append, filter_att_append_inv]
            simp [isAttEv, List.range_succ]
          · intro i hi hb; rw [hA] at hi
            have hi0 : i = 0 := by omega
            subst hi0
            rw [hf0] at hb
            simp only at hb
            subst hb
            exact ⟨[], [RetryEv.att 1], by rw [hE]; simp⟩
          · intro i h0 hlt; rw [hA] at hlt
            have hi1 : i = 1 := by omega
            subst hi1
            rw [hS]
            simp
        case _ =>
          rcases hf2 : f 2 with ⟨o2, c2⟩
          rcases o2 with buf2 | m2
          case _ =>
            have htr : captureScreenshot f browser0 =
                ⟨Except.ok buf2, 3,
                  (([RetryEv.att 0] ++ (if c0 then [RetryEv.invalidate] else [])) ++
                    ([RetryEv.att 1] ++ (if c1 then [RetryEv.invalidate] else []))) ++
                    [RetryEv.att 2],
                  [browser0, false, false]⟩ := by
              simp [captureScreenshot, captureLoop_step, hf0, hr0, hf1, hr1, hf2]
            have hA : (captureScreenshot f browser0).attempts = 3 := by rw [htr]
            have hR : (captureScreenshot f browser0).result = Except.ok buf2 := by rw [htr]
            have hE : (captureScreenshot f browser0).events =
                (([RetryEv.att 0] ++ (if c0 then [RetryEv.invalidate] else [])) ++
                  ([RetryEv.att 1] ++ (if c1 then [RetryEv.invalidate] else []))) ++
                  [RetryEv.att 2] := by rw [htr]
            have hS : (captureScreenshot f browser0).startStates =
                [browser0, false, false] := by rw [htr]
            refine ⟨by rw [hA],
              by rw [hA]; simp [retrySpecAttempts, hf0, hr0, hf1, hr1], ?_, ?_, ?_, ?_, ?_⟩
            · rw [hR, hA]; simp [hf2]
            · intro i hi; rw [hA] at hi
              have hi01 : i = 0 ∨ i = 1 := by omega
              rcases hi01 with rfl | rfl
              · exact ⟨m0, by simp [hf0], hr0⟩
              · exact ⟨m1, by simp [hf1], hr1⟩
            · rw [hE, hA]
              rw [List.filter_append, List.filter_append, filter_att_append_inv,
                filter_att_append_inv]
              simp [isAttEv, List.range_succ]
            · intro i hi hb; rw [hA] at hi
              have hi01 : i = 0 ∨ i = 1 := by omega
              rcases hi01 with rfl | rfl
              · rw [hf0] at hb
                simp only at hb
                subst hb
                exact ⟨[], ([RetryEv.att 1] ++ (if c1 then [RetryEv.invalidate] else [])) ++
                  [RetryEv.att 2], by rw [hE]; simp⟩
              · rw [hf1] at hb
                simp only at hb
                subst hb
                exact ⟨[RetryEv.att 0] ++ (if c0 then [RetryEv.invalidate] else []),
                  [RetryEv.att 2], by rw [hE]; simp⟩
            · intro i h0 hlt; rw [hA] at hlt
              have hi12 : i = 1 ∨ i = 2 := by omega
              rw [hS]
              rcases hi12 with rfl | rfl <;> simp
          case _ =>
            have htr : captureScreenshot f browser0 =
                ⟨Except.error m2, 3,
                  ((([RetryEv.att 0] ++ (if c0 then [RetryEv.invalidate] else [])) ++
                    ([RetryEv.att 1] ++ (if c1 then [RetryEv.invalidate] else []))) ++
                    [RetryEv.att 2]) ++ (if isRetryableMsg m2 then
                      (if c2 then [RetryEv.invalidate] else []) else []),
                  [browser0, false, false]⟩ := by
              rcases hr2 : isRetryableMsg m2 with _ | _
              · simp [captureScreenshot, captureLoop_step, hf0, hr0, hf1, hr1, hf2, hr2]
              · simp [captureScreenshot, captureLoop_step, hf0, hr0, hf1, hr1, hf2, hr2,
                  captureLoop]
            have hA : (captureScreenshot f browser0).attempts = 3 := by rw [htr]
            have hR : (captureScreenshot f browser0).result = Except.error m2 := by rw [htr]
            have hE : (captureScreenshot f browser0).events =
                ((([RetryEv.att 0] ++ (if c0 then [RetryEv.invalidate] else [])) ++
                  ([RetryEv.att 1] ++ (if c1 then [RetryEv.invalidate] else []))) ++
                  [RetryEv.att 2]) ++ (if isRetryableMsg m2 then
                    (if c2 then [RetryEv.invalidate] else []) else []) := by rw [htr]
            have hS : (captureScreenshot f browser0).startStates =
                [browser0, false, false] := by rw [htr]
            refine ⟨by rw [hA],
              by rw [hA]; simp [retrySpecAttempts, hf0, hr0, hf1, hr1], ?_, ?_, ?_, ?_, ?_⟩
            · rw [hR, hA]; simp [hf2]
            · intro i hi; rw [hA] at hi
              have hi01 : i = 0 ∨ i = 1 := by omega
              rcases hi01 with rfl | rfl
              · exact ⟨m0, by simp [hf0], hr0⟩
              · exact ⟨m1, by simp [hf1], hr1⟩
            · rw [hE, hA]
              rw [filter_att_append_inv2, List.filter_append, List.filter_append,
                filter_att_append_inv, filter_att_append_inv]
              simp [isAttEv, List.range_succ]
            · intro i hi hb; rw [hA] at hi
              have hi01 : i = 0 ∨ i = 1 := by omega
              rcases hi01 with rfl | rfl
              · rw [hf0] at hb
                simp only at hb
                subst hb
                exact ⟨[], (([RetryEv.att 1] ++ (if c1 then [RetryEv.invalidate] else [])) ++
                  [RetryEv.att 2]) ++ (if isRetryableMsg m2 then
                    (if c2 then [RetryEv.invalidate] else []) else []), by rw [hE]; simp⟩
              · rw [hf1] at hb
                simp only at hb
                subst hb
                exact ⟨[RetryEv.att 0] ++ (if c0 then [RetryEv.invalidate] else []),
                  [RetryEv.att 2] ++ (if isRetryableMsg m2 then
                    (if c2 then [RetryEv.invalidate] else []) else []), by rw [hE]; simp⟩
            · intro i h0 hlt; rw [hA] at hlt
              have hi12 : i = 1 ∨ i = 2 := by omega
              rw [hS]
              rcases hi12 with rfl | rfl <;> simp

/-- Witness for `c4_retry_policy`: an engine-closed failure on attempt 1 and
success on attempt 2 gives overall success with exactly 2 attempts and an
invalidation between them. -/
theorem c4_retry_policy_witness :
    (0 + 1 < (captureScreenshot
        (fun i => if i = 0 then (.err "Target page, context or browser has been closed", true)
          else (.ok [137], true)) true).attempts ∧
      ((fun i => if i = 0 then
          ((AttemptOutcome.err "Target page, context or browser has been closed"), true)
        else (.ok [137], true)) 0).2 = true ∧
      ∃ l1 l2, (captureScreenshot
        (fun i => if i = 0 then (.err "Target page, context or browser has been closed", true)
          else (.ok [137], true)) true).events =
        l1 ++ RetryEv.att 0 :: RetryEv.invalidate :: l2) ∧
    (captureScreenshot
        (fun i => if i = 0 then (.err "Target page, context or browser has been closed", true)
          else (.ok [137], true)) true).attempts = 2 := by
  refine ⟨⟨?_, by decide, ?_⟩, ?_⟩
  · decide
  · exact (c4_retry_policy (fun i =>
      if i = 0 then (.err "Target page, context or browser has been closed", true)
      else (.ok [137], true)) true).2.2.2.2.2.1 0 (by decide) (by decide)
  · decide

/-- On every exit path from the navigation step onward, the page is closed
and then the context is closed, exactly once each. -/
theorem capturePipelineTail_closes (req : ScreenshotRequest) (env : AttemptEnv)
    (acts : List PipeAct) :
    (capturePipelineTail req env acts).2.filter isCloseAct =
      acts.filter isCloseAct ++ [PipeAct.closePage, PipeAct.closeContext] := by
  unfold capturePipelineTail
  rcases hg : env.goto with e | u
  · simp [closeBothActs, isCloseAct]
  · rcases hs : env.shot with e | buf
    · simp [closeBothActs, isCloseAct]
    · by_cases hlen : buf.length = 0
      · simp [hlen, closeBothActs, isCloseAct]
      · by_cases hsig : pngSignatureOk buf = false
        · simp [hlen, hsig, closeBothActs, isCloseAct]
        · simp [hlen, hsig, closeBothActs, isCloseAct]

/-- C8: on every exit path of a capture attempt the page-level resource is
closed before the context-level resource, each resource that was created is
closed exactly once (none when the context never came to exist, context only
when the page never came to exist), and the outcomes of the two close calls
(`.catch(() => {})` in the source) influence neither the attempt's result nor
its action sequence. -/
theorem c8_session_cleanup (req : ScreenshotRequest) (env : AttemptEnv) :
    ((captureScreenshotOnce req env).2.filter isCloseAct =
      (if exOk env.createContext then
        (if exOk env.newPage then [PipeAct.closePage, PipeAct.closeContext]
         else [PipeAct.closeContext])
       else [])) ∧
    (∀ cp cc, (captureScreenshotOnce req
        {env with closePage := cp, closeContext := cc}).1 =
      (captureScreenshotOnce req env).1) ∧
    (∀ cp cc, (captureScreenshotOnce req
        {env with closePage := cp, closeContext := cc}).2 =
      (captureScreenshotOnce req env).2) := by
  refine ⟨?_, fun cp cc => rfl, fun cp cc => rfl⟩
  rcases hcc : env.createContext with e | u
  · simp [captureScreenshotOnce, hcc, isCloseAct, exOk]
  · rcases hnp : env.newPage with e | u2
    · simp [captureScreenshotOnce, hcc, hnp, isCloseAct, exOk]
    · by_cases hba : req.blockAds
      · rcases hrt : env.route with e | u3
        · simp [captureScreenshotOnce, hcc, hnp, hba, hrt, isCloseAct, exOk, closeBothActs]
        · simp [captureScreenshotOnce, hcc, hnp, hba, hrt, exOk,
            capturePipelineTail_closes, isCloseAct]
      · simp [captureScreenshotOnce, hcc, hnp, hba, exOk,
          capturePipelineTail_closes, isCloseAct]

/-- Witness for `c8_session_cleanup` at a concrete request and environment
(a failing navigation): both closes happen, in order. -/
theorem c8_session_cleanup_witness :
    (captureScreenshotOnce
        ⟨"https://example.com", none, none, false, false, false, .desktop, .networkidle, 30000⟩
        ⟨.ok (), .ok (), .ok (), .error "net::ERR_CONNECTION_REFUSED", .ok (), .ok [], .ok (),
          .ok (), "example.com"⟩).2.filter isCloseAct =
      [PipeAct.closePage, PipeAct.closeContext] := by
  have h := (c8_session_cleanup
    ⟨"https://example.com", none, none, false, false, false, .desktop, .networkidle, 30000⟩
    ⟨.ok (), .ok (), .ok (), .error "net::ERR_CONNECTION_REFUSED", .ok (), .ok [], .ok (),
      .ok (), "example.com"⟩).1
  simpa [exOk] using h

/-- Lazy eviction only removes entries: the cache after a `getCache` call is a
sublist of the cache before it. -/
theorem getCache_snd_sublist {α : Type} (now : Int) (c : CacheStore α) (key : String) :
    ((getCache now c key).2).Sublist c := by
  unfold getCache
  rcases hf : c.find? (fun p => p.1 == key) with _ | p
  · simp only [hf]
    exact List.Sublist.refl c
  · rcases p with ⟨k0, e⟩
    simp only [hf]
    by_cases hexp : now > e.expiresAt
    · rw [if_pos hexp]
      exact List.filter_sublist c
    · rw [if_neg hexp]

/-- C6 counterexample: a produced payload `[1, 2, 3]` (wrong signature) makes
the attempt fail with `Screenshot capture returned invalid PNG data`, but both
classifier tables map that message to `INTERNAL_ERROR`/500 — not to the
`SCREENSHOT_FAILED`(502) kind the claim's "capture-failed error" names. -/
theorem c6_validation_claim_counterexample :
    (captureScreenshotOnce
        ⟨"https://example.com", none, none, false, false, false, .desktop, .networkidle, 30000⟩
        ⟨.ok (), .ok (), .ok (), .ok (), .ok (), .ok [1, 2, 3], .ok (), .ok (),
          "example.com"⟩).1 =
      Except.error "Screenshot capture returned invalid PNG data" ∧
    onErrorClassify "Screenshot capture returned invalid PNG data" =
      ⟨.INTERNAL_ERROR, 500, "An unexpected error occurred"⟩ ∧
    classifyError "Screenshot capture returned invalid PNG data" =
      ⟨.INTERNAL_ERROR, 500, "An unexpected error occurred"⟩ ∧
    ErrorCode.INTERNAL_ERROR ≠ ErrorCode.SCREENSHOT_FAILED := by
  refine ⟨by decide, by decide, by decide, by decide⟩

/-- C6 (amended): an empty or wrongly-signed payload makes the attempt fail
with the corresponding validation error message; that message matches no
retry signal (so the failure is not retried) and is classified
`INTERNAL_ERROR`/500 by the wired classifier (not `SCREENSHOT_FAILED`); and a
request whose capture errors never writes the cache (the cache can only
shrink by lazy eviction) and never stores a file. -/
theorem c6_capture_validation (req : ScreenshotRequest) (env : AttemptEnv) (buf : List Nat)
    (hshot : env.shot = .ok buf)
    (hbad : buf = [] ∨ pngSignatureOk buf = false)
    (hc : env.createContext = .ok ()) (hp : env.newPage = .ok ())
    (hr : req.blockAds = true → env.route = .ok ()) (hg : env.goto = .ok ()) :
    (captureScreenshotOnce req env).1 =
      Except.error (if buf.length = 0 then "Screenshot capture returned empty buffer"
        else "Screenshot capture returned invalid PNG data") ∧
    isRetryableMsg (if buf.length = 0 then "Screenshot capture returned empty buffer"
      else "Screenshot capture returned invalid PNG data") = false ∧
    onErrorClassify (if buf.length = 0 then "Screenshot capture returned empty buffer"
      else "Screenshot capture returned invalid PNG data") =
      ⟨.INTERNAL_ERROR, 500, "An unexpected error occurred"⟩ ∧
    (∀ cfg ttl now st body sid e,
      ((screenshotPipeline cfg ttl now st body sid (Except.error e)).2.cache).Sublist
        st.cache ∧
      (screenshotPipeline cfg ttl now st body sid (Except.error e)).2.stored = st.stored) := by
  have hbadlen : buf.length = 0 ∨ (buf.length ≠ 0 ∧ pngSignatureOk buf = false) := by
    rcases hbad with h | h
    · left; simp [h]
    · by_cases hl : buf.length = 0
      · left; exact hl
      · right; exact ⟨hl, h⟩
  refine ⟨?_, ?_, ?_, ?_⟩
  · have htail : ∀ acts, (capturePipelineTail req env acts).1 =
        Except.error (if buf.length = 0 then "Screenshot capture returned empty buffer"
          else "Screenshot capture returned invalid PNG data") := by
      intro acts
      unfold capturePipelineTail
      rw [hg, hshot]
      rcases hbadlen with h | ⟨h1, h2⟩
      · simp [h]
      · simp [h1, h2]
    by_cases hba : req.blockAds
    · simp [captureScreenshotOnce, hc, hp, hba, hr hba, htail]
    · simp [captureScreenshotOnce, hc, hp, hba, htail]
  · rcases hbadlen with h | ⟨h1, h2⟩
    · simp only [h, if_pos]; decide
    · rw [if_neg h1]; decide
  · rcases hbadlen with h | ⟨h1, h2⟩
    · simp only [h, if_pos]; decide
    · rw [if_neg h1]; decide
  · intro cfg ttl now st body sid e
    by_cases hal : (checkRateLimit cfg now st.rate).allowed = false
    · simp [screenshotPipeline, hal]
    · by_cases hvb : validateBody body = false
      · simp [screenshotPipeline, hal, hvb]
      · rcases hgc : getCache now st.cache (generateCacheKey body.req) with ⟨o, cache1⟩
        have hsub : cache1.Sublist st.cache := by
          have := getCache_snd_sublist now st.cache (generateCacheKey body.req)
          rw [hgc] at this
          exact this
        rcases o with _ | m
        · simp [screenshotPipeline, hal, hvb, hgc]
          exact hsub
        · simp [screenshotPipeline, hal, hvb, hgc]
          exact hsub

/-- Witness for `c6_capture_validation` at the concrete bad payload
`[1, 2, 3]` and an empty service state. -/
theorem c6_capture_validation_witness :
    (captureScreenshotOnce
        ⟨"https://example.com", none, none, false, false, false, .desktop, .networkidle, 30000⟩
        ⟨.ok (), .ok (), .ok (), .ok (), .ok (), .ok [1, 2, 3], .ok (), .ok (),
          "example.com"⟩).1 =
      Except.error (if ([1, 2, 3] : List Nat).length = 0 then
        "Screenshot capture returned empty buffer"
        else "Screenshot capture returned invalid PNG data") ∧
    ((screenshotPipeline ⟨3600000, 10⟩ 3600000 1000 ⟨[], [], [], 0⟩
        ⟨"https:", "example.com", true, true,
          ⟨"https://example.com", none, none, false, false, false, .desktop, .networkidle,
            30000⟩⟩
        "id0" (Except.error "Screenshot capture returned invalid PNG data")).2.cache).Sublist
      [] := by
  constructor
  · exact (c6_capture_validation
      ⟨"https://example.com", none, none, false, false, false, .desktop, .networkidle, 30000⟩
      ⟨.ok (), .ok (), .ok (), .ok (), .ok (), .ok [1, 2, 3], .ok (), .ok (), "example.com"⟩
      [1, 2, 3] rfl (Or.inr (by decide)) rfl rfl (fun _ => rfl) rfl).1
  · exact ((c6_capture_validation
      ⟨"https://example.com", none, none, false, false, false, .desktop, .networkidle, 30000⟩
      ⟨.ok (), .ok (), .ok (), .ok (), .ok (), .ok [1, 2, 3], .ok (), .ok (), "example.com"⟩
      [1, 2, 3] rfl (Or.inr (by decide)) rfl rfl (fun _ => rfl) rfl).2.2.2
      ⟨3600000, 10⟩ 3600000 1000 ⟨[], [], [], 0⟩
      ⟨"https:", "example.com", true, true,
        ⟨"https://example.com", none, none, false, false, false, .desktop, .networkidle,
          30000⟩⟩
      "id0" "Screenshot capture returned invalid PNG data").1

/-- A first-match-wins scan is the `find?` of the first matching entry. -/
theorem classifyWith_eq_find (table : List ErrorPattern) (msg : String) :
    classifyWith table msg =
      (match table.find? (fun e => ciContains msg e.pattern) with
       | some e => ⟨e.code, e.status, e.message.getD msg⟩
       | none => ⟨.INTERNAL_ERROR, 500, "An unexpected error occurred"⟩) := by
  induction table with
  | nil => rfl
  | cons e rest ih =>
    by_cases h : ciContains msg e.pattern = true
    · simp [classifyWith, h]
    · simp only [Bool.not_eq_true] at h
      simp [classifyWith, h, ih]

/-- The message produced by a table whose entries all carry a fixed message is
either the generic default or one of those fixed messages — never the raw
input text. -/
theorem classifyWith_message_mem (table : List ErrorPattern) (msg : String)
    (hm : ∀ e ∈ table, e.message.isSome = true) :
    (classifyWith table msg).message ∈
      "An unexpected error occurred" :: table.filterMap (fun e => e.message) := by
  induction table with
  | nil => simp [classifyWith]
  | cons e rest ih =>
    by_cases h : ciContains msg e.pattern = true
    · have he := hm e (by simp)
      rcases Option.isSome_iff_exists.mp he with ⟨m, hmeq⟩
      simp [classifyWith, h, hmeq]
    · simp only [Bool.not_eq_true] at h
      have hrest := ih (fun x hx => hm x (by simp [hx]))
      simp only [classifyWith, h, Bool.false_eq_true, if_false]
      rcases List.mem_cons.mp hrest with h1 | h1
      · simp [h1]
      · simp only [List.mem_cons]
        right
        rcases List.mem_filterMap.mp h1 with ⟨x, hx1, hx2⟩
        exact List.mem_filterMap.mpr ⟨x, by simp [hx1], hx2⟩

/-- C7: raw failure text is classified by an ordered (pattern, kind, status,
message) table scanned first-match-wins; any message matching `/timeout/i`
yields `TIMEOUT`/504 (it is the first entry of both tables); a message
matching no entry yields `INTERNAL_ERROR`/500 with the generic message; and
the classified message always comes from the fixed message set of the table —
raw engine error text never reaches the external payload.  Both the
`errorHandler.ts` table (`classifyError`) and the `index.ts` table wired via
`app.onError` (`onErrorClassify`) are covered. -/
theorem c7_error_classifier (msg : String) :
    (ciContains msg "timeout" = true →
      classifyError msg = ⟨.TIMEOUT, 504, "The page took too long to load"⟩ ∧
      onErrorClassify msg = ⟨.TIMEOUT, 504, "The page took too long to load"⟩) ∧
    ((∀ e ∈ ERROR_PATTERNS, ciContains msg e.pattern = false) →
      classifyError msg = ⟨.INTERNAL_ERROR, 500, "An unexpected error occurred"⟩) ∧
    ((∀ e ∈ ERROR_PATTERNS_MAIN, ciContains msg e.pattern = false) →
      onErrorClassify msg = ⟨.INTERNAL_ERROR, 500, "An unexpected error occurred"⟩) ∧
    classifyError msg =
      (match ERROR_PATTERNS.find? (fun e => ciContains msg e.pattern) with
       | some e => ⟨e.code, e.status, e.message.getD msg⟩
       | none => ⟨.INTERNAL_ERROR, 500, "An unexpected error occurred"⟩) ∧
    onErrorClassify msg =
      (match ERROR_PATTERNS_MAIN.find? (fun e => ciContains msg e.pattern) with
       | some e => ⟨e.code, e.status, e.message.getD msg⟩
       | none => ⟨.INTERNAL_ERROR, 500, "An unexpected error occurred"⟩) ∧
    (classifyError msg).message ∈
      ["An unexpected error occurred", "The page took too long to load",
       "Could not resolve the domain name", "Connection refused by the target server",
       "SSL/TLS error when connecting to the target",
       "Certificate error when connecting to the target", "Failed to navigate to the page",
       "Browser communication error", "This URL is blocked for security reasons"] ∧
    (onErrorClassify msg).message ∈
      ["An unexpected error occurred", "The page took too long to load",
       "Could not resolve the domain name", "Connection refused by the target server",
       "SSL/TLS error when connecting to the target", "Failed to navigate to the page"] := by
  refine ⟨?_, ?_, ?_, ?_, ?_, ?_, ?_⟩
  · intro h
    constructor
    · simp [classifyError, ERROR_PATTERNS, classifyWith, h]
    · simp [onErrorClassify, ERROR_PATTERNS_MAIN, classifyWith, h]
  · intro h
    rw [classifyError, classifyWith_eq_find]
    rw [List.find?_eq_none.mpr (fun e he => by simp [h e he])]
  · intro h
    rw [onErrorClassify, classifyWith_eq_find]
    rw [List.find?_eq_none.mpr (fun e he => by simp [h e he])]
  · exact classifyWith_eq_find ERROR_PATTERNS msg
  · exact classifyWith_eq_find ERROR_PATTERNS_MAIN msg
  · have := classifyWith_message_mem ERROR_PATTERNS msg (by decide)
    simpa [ERROR_PATTERNS, classifyError] using this
  · have := classifyWith_message_mem ERROR_PATTERNS_MAIN msg (by decide)
    simpa [ERROR_PATTERNS_MAIN, onErrorClassify] using this

/-- Witness for `c7_error_classifier`: a concrete timeout message is mapped to
`TIMEOUT`/504, and a concrete unmatched message falls through to the default. -/
theorem c7_error_classifier_witness :
    (ciContains "Timeout navigating to https://example.com" "timeout" = true ∧
      classifyError "Timeout navigating to https://example.com" =
        ⟨.TIMEOUT, 504, "The page took too long to load"⟩) ∧
    ((∀ e ∈ ERROR_PATTERNS, ciContains "boom" e.pattern = false) ∧
      classifyError "boom" = ⟨.INTERNAL_ERROR, 500, "An unexpected error occurred"⟩) := by
  refine ⟨⟨by decide, ?_⟩, ⟨by decide, ?_⟩⟩
  · exact ((c7_error_classifier "Timeout navigating to https://example.com").1 (by decide)).1
  · exact (c7_error_classifier "boom").2.1 (by decide)

/-- Every atomic event preserves the browser-manager invariant. -/
theorem browserStep_inv (s : BrowserState) (ev : BrowserEv) (h : browserInv s) :
    browserInv (browserStep s ev).1 := by
  obtain ⟨br, lk, nx, st0, fin⟩ := s
  obtain ⟨h1, h2, h3⟩ := h
  cases ev
  case arrive =>
    rcases br with _ | p
    · rcases lk with _ | a
      · simp only [browserStep]
        refine ⟨?_, ?_, ?_⟩
        · simp at h1 ⊢
          omega
        · intro a ha
          simp at ha ⊢
          omega
        · intro h b hb
          simp at hb
      · exact ⟨h1, h2, h3⟩
    · rcases p with ⟨hd, b⟩
      cases b
      · rcases lk with _ | a
        · simp only [browserStep]
          refine ⟨?_, ?_, ?_⟩
          · simp at h1 ⊢
            omega
          · intro a ha
            simp at ha ⊢
            omega
          · intro h b hb
            simp at hb
        · exact ⟨h1, h2, h3⟩
      · exact ⟨h1, h2, h3⟩
  case completeOk =>
    rcases lk with _ | a
    · exact ⟨h1, h2, h3⟩
    · simp only [browserStep]
      refine ⟨?_, ?_, ?_⟩
      · simp at h1 ⊢
        omega
      · intro a2 ha2
        simp at ha2
      · intro hd b hb
        simp at hb ⊢
        obtain ⟨h', _⟩ := hb
        have ha := h2 a rfl
        simp at ha
        omega
  case completeFail =>
    rcases lk with _ | a
    · exact ⟨h1, h2, h3⟩
    · simp only [browserStep]
      refine ⟨?_, ?_, ?_⟩
      · simp at h1 ⊢
        omega
      · intro a2 ha2
        simp at ha2
      · intro hd b hb
        simp at hb
  case crash =>
    simp only [browserStep]
    refine ⟨h1, h2, ?_⟩
    intro hd b hb
    rcases br with _ | p
    · simp at hb
    · rcases p with ⟨hd0, b0⟩
      simp at hb ⊢
      obtain ⟨h', _⟩ := hb
      have hlt := h3 hd0 b0 rfl
      simp at hlt
      omega

/-- Running any event sequence preserves the invariant. -/
theorem browserRun_inv (evs : List BrowserEv) (s : BrowserState) (h : browserInv s) :
    browserInv (browserRun s evs).1 := by
  induction evs generalizing s with
  | nil => exact h
  | cons e rest ih =>
    simp only [browserRun]
    exact ih _ (browserStep_inv s e h)

/-- While a launch attempt `a` is pending and no live handle exists, every
arriving caller joins attempt `a` and the state does not change. -/
theorem arrive_joins (K : Nat) (s : BrowserState) (a : Nat)
    (hb : s.browser = none) (hl : s.lock = some a) :
    browserRun s (List.replicate K BrowserEv.arrive) =
      (s, List.replicate K (AcqRes.joined a)) := by
  induction K with
  | zero => simp [browserRun]
  | succ k ih =>
    have hstep : browserStep s BrowserEv.arrive = (s, [AcqRes.joined a]) := by
      simp [browserStep, hb, hl]
    simp [List.replicate_succ, browserRun, hstep, ih]

/-- C5: (i) in every run from the initial state, launches started never
exceed launches finished by more than one — at most one engine launch is in
flight at any instant; (ii) when `K + 1` acquire calls arrive while no live
handle exists and no launch is pending, exactly one launch starts and all
`K + 1` callers join that same attempt; (iii) when the pending attempt `a`
completes successfully, the stored handle is attempt `a`'s handle — shared by
all its waiters — and later arrivals reuse it; (iv) when attempt `a` fails,
no handle is stored, the lock clears, and the next arrival starts a fresh
attempt with a new id. -/
theorem c5_single_flight :
    (∀ evs : List BrowserEv,
      (browserRun browserInit evs).1.started ≤ (browserRun browserInit evs).1.finished + 1) ∧
    (∀ s K, noLiveHandle s = true → s.lock = none →
      (browserRun s (List.replicate (K + 1) BrowserEv.arrive)).1.started = s.started + 1 ∧
      (browserRun s (List.replicate (K + 1) BrowserEv.arrive)).2 =
        List.replicate (K + 1) (AcqRes.joined s.nextId)) ∧
    (∀ s a, s.lock = some a →
      (browserStep s BrowserEv.completeOk).1.browser = some (a, true) ∧
      (browserStep (browserStep s BrowserEv.completeOk).1 BrowserEv.arrive).2 =
        [AcqRes.cached a]) ∧
    (∀ s a, s.lock = some a →
      (browserStep s BrowserEv.completeFail).1.browser = none ∧
      (browserStep s BrowserEv.completeFail).1.lock = none ∧
      (a < s.nextId →
        (browserStep (browserStep s BrowserEv.completeFail).1 BrowserEv.arrive).2 =
          [AcqRes.joined s.nextId] ∧ s.nextId ≠ a)) := by
  refine ⟨?_, ?_, ?_, ?_⟩
  · intro evs
    have h := browserRun_inv evs browserInit (by simp [browserInv, browserInit])
    obtain ⟨h1, _, _⟩ := h
    rcases hlk : (browserRun browserInit evs).1.lock with _ | a <;> simp [hlk] at h1 <;> omega
  · intro s K hnl hl
    have hstep : browserStep s BrowserEv.arrive =
        (⟨none, some s.nextId, s.nextId + 1, s.started + 1, s.finished⟩,
          [AcqRes.joined s.nextId]) := by
      rcases hbr : s.browser with _ | p
      · simp [browserStep, hbr, hl]
      · rcases p with ⟨hd, b⟩
        cases b
        · simp [browserStep, hbr, hl]
        · simp [noLiveHandle, hbr] at hnl
    have hjoin := arrive_joins K
      ⟨none, some s.nextId, s.nextId + 1, s.started + 1, s.finished⟩ s.nextId rfl rfl
    constructor
    · simp [List.replicate_succ, browserRun, hstep, hjoin]
    · simp [List.replicate_succ, browserRun, hstep, hjoin]
  · intro s a hl
    have hstep : (browserStep s BrowserEv.completeOk).1 =
        {s with browser := some (a, true), lock := none, finished := s.finished + 1} := by
      simp [browserStep, hl]
    refine ⟨by rw [hstep], ?_⟩
    rw [hstep]
    simp [browserStep]
  · intro s a hl
    have hstep : (browserStep s BrowserEv.completeFail).1 =
        {s with browser := none, lock := none, finished := s.finished + 1} := by
      simp [browserStep, hl]
    refine ⟨by rw [hstep], by rw [hstep], ?_⟩
    intro hlt
    refine ⟨?_, by omega⟩
    rw [hstep]
    simp [browserStep]

/-- Witness for `c5_single_flight`: three concurrent arrivals from the
initial state start exactly one launch and all join attempt 0; a pending
attempt that fails leaves no handle and the next arrival starts attempt with
the next id. -/
theorem c5_single_flight_witness :
    (noLiveHandle browserInit = true ∧ browserInit.lock = none ∧
      (browserRun browserInit (List.replicate 3 BrowserEv.arrive)).1.started =
        browserInit.started + 1 ∧
      (browserRun browserInit (List.replicate 3 BrowserEv.arrive)).2 =
        List.replicate 3 (AcqRes.joined browserInit.nextId)) ∧
    ((⟨none, some 5, 6, 3, 2⟩ : BrowserState).lock = some 5 ∧
      (browserStep (⟨none, some 5, 6, 3, 2⟩ : BrowserState) BrowserEv.completeOk).1.browser =
        some (5, true)) ∧
    ((5 : Nat) < 6 ∧
      (browserStep (browserStep (⟨none, some 5, 6, 3, 2⟩ : BrowserState)
        BrowserEv.completeFail).1 BrowserEv.arrive).2 = [AcqRes.joined 6] ∧ (6 : Nat) ≠ 5) := by
  refine ⟨⟨by decide, rfl, ?_, ?_⟩, ⟨rfl, ?_⟩, ⟨by decide, ?_⟩⟩
  · exact (c5_single_flight.2.1 browserInit 2 (by decide) rfl).1
  · exact (c5_single_flight.2.1 browserInit 2 (by decide) rfl).2
  · exact (c5_single_flight.2.2.1 (⟨none, some 5, 6, 3, 2⟩ : BrowserState) 5 rfl).1
  · refine ⟨?_, ?_⟩
    · exact ((c5_single_flight.2.2.2 (⟨none, some 5, 6, 3, 2⟩ : BrowserState) 5 rfl).2.2
        (by decide)).1
    · exact ((c5_single_flight.2.2.2 (⟨none, some 5, 6, 3, 2⟩ : BrowserState) 5 rfl).2.2
        (by decide)).2

/-- Lowercasing fixes a decimal digit character. -/
theorem digitChar_toLower (d : Nat) (hd : d < 10) :
    (Char.ofNat (48 + d)).toLower = Char.ofNat (48 + d) := by
  interval_cases d <;> decide

/-- A decimal digit character passes `Char.isDigit`. -/
theorem digitChar_isDigit (d : Nat) (hd : d < 10) :
    (Char.ofNat (48 + d)).isDigit = true := by
  interval_cases d <;> decide

/-- A decimal digit character is not a dot. -/
theorem digitChar_ne_dot (d : Nat) (hd : d < 10) : Char.ofNat (48 + d) ≠ '.' := by
  interval_cases d <;> decide

/-- Numeric value of a decimal digit character. -/
theorem digitVal_digitChar (d : Nat) (hd : d < 10) : digitVal (Char.ofNat (48 + d)) = d := by
  interval_cases d <;> decide

/-- Splitting at dots peels off a dot-free group. -/
theorem splitDots_group (g rest : List Char) (hg : ∀ c ∈ g, c ≠ '.') :
    splitDots (g ++ '.' :: rest) = g :: splitDots rest := by
  induction g with
  | nil => simp [splitDots]
  | cons c g' ih =>
    have hc : c ≠ '.' := hg c (by simp)
    have ih' := ih (fun x hx => hg x (by simp [hx]))
    simp [splitDots, hc, ih']

/-- A dot-free list splits into a single group. -/
theorem splitDots_no_dot (g : List Char) (hg : ∀ c ∈ g, c ≠ '.') : splitDots g = [g] := by
  induction g with
  | nil => simp [splitDots]
  | cons c g' ih =>
    have hc : c ≠ '.' := hg c (by simp)
    have ih' := ih (fun x hx => hg x (by simp [hx]))
    simp [splitDots, hc, ih']

/-- Digit groups contain no dot. -/
theorem digitsToChars_no_dot (l : List Nat) (hl : ∀ d ∈ l, d < 10) :
    ∀ c ∈ digitsToChars l, c ≠ '.' := by
  intro c hc
  simp only [digitsToChars, List.mem_map] at hc
  rcases hc with ⟨d, hd, rfl⟩
  exact digitChar_ne_dot d (hl d hd)

/-- Accumulating digit characters computes the group's decimal value. -/
theorem foldl_digit_chars (l : List Nat) (hl : ∀ d ∈ l, d < 10) (a : Nat) :
    (digitsToChars l).foldl (fun acc c => acc * 10 + digitVal c) a =
      l.foldl (fun acc d => acc * 10 + d) a := by
  induction l generalizing a with
  | nil => rfl
  | cons d rest ih =>
    simp only [digitsToChars, List.map_cons, List.foldl_cons]
    rw [digitVal_digitChar d (hl d (by simp))]
    simpa [digitsToChars] using ih (fun x hx => hl x (by simp [hx])) (a * 10 + d)

/-- A well-formed digit group is accepted by the octet parser with its
decimal value. -/
theorem octetValue_digits (l : List Nat) (hl : goodDigits l) :
    octetValue? (digitsToChars l) = some (digitsVal l) := by
  obtain ⟨hne, hlen, hdig⟩ := hl
  unfold octetValue?
  have hcond : digitsToChars l ≠ [] ∧ (digitsToChars l).length ≤ 3 ∧
      (digitsToChars l).all Char.isDigit = true := by
    refine ⟨by simpa [digitsToChars] using hne, by simpa [digitsToChars] using hlen, ?_⟩
    rw [List.all_eq_true]
    intro c hc
    simp only [digitsToChars, List.mem_map] at hc
    rcases hc with ⟨d, hd, rfl⟩
    exact digitChar_isDigit d (hdig d hd)
  rw [if_pos hcond]
  rw [foldl_digit_chars l hdig 0]
  rfl

/-- The quad regex matches `quadHost` and extracts the four group values. -/
theorem ipQuad_quadHost (l1 l2 l3 l4 : List Nat)
    (h1 : goodDigits l1) (h2 : goodDigits l2) (h3 : goodDigits l3) (h4 : goodDigits l4) :
    ipQuad? (quadHost l1 l2 l3 l4).data =
      some (digitsVal l1, digitsVal l2, digitsVal l3, digitsVal l4) := by
  unfold ipQuad? quadHost
  rw [show (String.mk (digitsToChars l1 ++ '.' :: (digitsToChars l2 ++ '.' ::
      (digitsToChars l3 ++ '.' :: digitsToChars l4)))).data =
      digitsToChars l1 ++ '.' :: (digitsToChars l2 ++ '.' ::
        (digitsToChars l3 ++ '.' :: digitsToChars l4)) from rfl]
  rw [splitDots_group _ _ (digitsToChars_no_dot l1 h1.2.2),
    splitDots_group _ _ (digitsToChars_no_dot l2 h2.2.2),
    splitDots_group _ _ (digitsToChars_no_dot l3 h3.2.2),
    splitDots_no_dot _ (digitsToChars_no_dot l4 h4.2.2)]
  simp [octetValue_digits l1 h1, octetValue_digits l2 h2, octetValue_digits l3 h3,
    octetValue_digits l4 h4]

/-- Lowercasing a dotted-quad hostname is the identity. -/
theorem lowerStr_quadHost (l1 l2 l3 l4 : List Nat)
    (h1 : ∀ d ∈ l1, d < 10) (h2 : ∀ d ∈ l2, d < 10) (h3 : ∀ d ∈ l3, d < 10)
    (h4 : ∀ d ∈ l4, d < 10) :
    lowerStr (quadHost l1 l2 l3 l4) = quadHost l1 l2 l3 l4 := by
  unfold lowerStr quadHost
  have hall : ∀ c ∈ digitsToChars l1 ++ '.' :: (digitsToChars l2 ++ '.' ::
      (digitsToChars l3 ++ '.' :: digitsToChars l4)), c.toLower = c := by
    intro c hc
    have hdig : ∀ (l : List Nat), (∀ d ∈ l, d < 10) → c ∈ digitsToChars l → c.toLower = c := by
      intro l hl hcl
      simp only [digitsToChars, List.mem_map] at hcl
      rcases hcl with ⟨d, hd, rfl⟩
      exact digitChar_toLower d (hl d hd)
    simp only [List.mem_append, List.mem_cons] at hc
    rcases hc with hc | rfl | hc
    · exact hdig l1 h1 hc
    · decide
    · rcases hc with hc | rfl | hc
      · exact hdig l2 h2 hc
      · decide
      · rcases hc with hc | rfl | hc
        · exact hdig l3 h3 hc
        · decide
        · exact hdig l4 h4 hc
  congr 1
  calc (digitsToChars l1 ++ '.' :: (digitsToChars l2 ++ '.' ::
      (digitsToChars l3 ++ '.' :: digitsToChars l4))).map Char.toLower
      = (digitsToChars l1 ++ '.' :: (digitsToChars l2 ++ '.' ::
        (digitsToChars l3 ++ '.' :: digitsToChars l4))).map id := List.map_congr_left hall
    _ = _ := List.map_id _

/-- If the hostname part of the check fails, the whole URL check fails. -/
theorem urlAllowed_false_of_host (p h : String)
    (hh : (!(blockedHostnames.contains (lowerStr h)) &&
      !(privateIpBlocked (lowerStr h).data)) = false) :
    urlAllowed p h = false := by
  simp only [urlAllowed]
  rw [hh, Bool.and_false]

/-- C9 counterexample: a request for `http://localhost/` is rejected by
validation (as the claim says), but the rate limiter has already recorded the
request — `app.use('/screenshot', rateLimiter)` runs before the route
handler validates — so a rate-limit record *does* occur, contradicting the
claim's "no capture, cache write, or rate-limit record ... ever occurs". -/
theorem c9_ssrf_claim_counterexample :
    validateBody ⟨"http:", "localhost", true, true,
      ⟨"http://localhost/", none, none, false, false, true, .desktop, .networkidle,
        30000⟩⟩ = false ∧
    (screenshotPipeline ⟨3600000, 10⟩ 3600000 1000 ⟨[], [], [], 0⟩
        ⟨"http:", "localhost", true, true,
          ⟨"http://localhost/", none, none, false, false, true, .desktop, .networkidle,
            30000⟩⟩
        "id0" (Except.ok [1])).1 = PipelineOutcome.validationError ∧
    (screenshotPipeline ⟨3600000, 10⟩ 3600000 1000 ⟨[], [], [], 0⟩
        ⟨"http:", "localhost", true, true,
          ⟨"http://localhost/", none, none, false, false, true, .desktop, .networkidle,
            30000⟩⟩
        "id0" (Except.ok [1])).2.rate = [1000] ∧
    [(1000 : Int)] ≠ [] := by
  refine ⟨by decide, by decide, by decide, by decide⟩

/-- C9 (amended): a request whose parsed URL has a blocked hostname
(localhost, 127.0.0.1, 0.0.0.0, ::1, metadata.google.internal,
169.254.169.254), or a dotted-quad hostname in 10.0.0.0/8, 172.16.0.0/12 or
192.168.0.0/16, or a scheme other than http/https, fails validation; a
validation-failing request produces a validation error with no capture, no
cache write and no storage write — but when admission allows the request, the
rate limiter has already recorded it (admission runs before validation). -/
theorem c9_ssrf_guard :
    (∀ p h, h ∈ blockedHostnames → urlAllowed p h = false) ∧
    (∀ p h, p ≠ "http:" → p ≠ "https:" → urlAllowed p h = false) ∧
    (∀ p (l1 l2 l3 l4 : List Nat), goodDigits l1 → goodDigits l2 → goodDigits l3 →
      goodDigits l4 →
      (digitsVal l1 = 10 ∨ (digitsVal l1 = 172 ∧ 16 ≤ digitsVal l2 ∧ digitsVal l2 ≤ 31) ∨
        (digitsVal l1 = 192 ∧ digitsVal l2 = 168)) →
      urlAllowed p (quadHost l1 l2 l3 l4) = false) ∧
    (∀ body : RequestBody, urlAllowed body.protocol body.hostname = false →
      validateBody body = false) ∧
    (∀ cfg ttl now st body sid cap, validateBody body = false →
      screenshotPipeline cfg ttl now st body sid cap =
        (if (checkRateLimit cfg now st.rate).allowed = false then
          (.rateLimited (checkRateLimit cfg now st.rate), st)
         else (.validationError, {st with rate := recordRequest cfg now st.rate}))) := by
  refine ⟨?_, ?_, ?_, ?_, ?_⟩
  · intro p h hmem
    simp only [blockedHostnames, List.mem_cons, List.not_mem_nil, or_false] at hmem
    rcases hmem with rfl | rfl | rfl | rfl | rfl | rfl <;>
      exact urlAllowed_false_of_host _ _ (by decide)
  · intro p h hp1 hp2
    simp only [urlAllowed]
    have hpr : (p == "http:" || p == "https:") = false := by
      simp [hp1, hp2]
    rw [hpr, Bool.false_and]
  · intro p l1 l2 l3 l4 h1 h2 h3 h4 hcase
    apply urlAllowed_false_of_host
    have hpriv : privateIpBlocked (lowerStr (quadHost l1 l2 l3 l4)).data = true := by
      rw [lowerStr_quadHost l1 l2 l3 l4 h1.2.2 h2.2.2 h3.2.2 h4.2.2]
      unfold privateIpBlocked
      rw [ipQuad_quadHost l1 l2 l3 l4 h1 h2 h3 h4]
      rcases hcase with h10 | ⟨h172, hb1, hb2⟩ | ⟨h192, h168⟩
      · simp [h10]
      · simp [h172, hb1, hb2]
      · simp [h192, h168]
    rw [hpriv]
    simp
  · intro body hu
    simp [validateBody, hu]
  · intro cfg ttl now st body sid cap hv
    by_cases hal : (checkRateLimit cfg now st.rate).allowed = false
    · simp [screenshotPipeline, hal]
    · simp [screenshotPipeline, hal, hv]

/-- Witness for `c9_ssrf_guard` at concrete inputs: `10.0.0.1` and a
`file:` scheme are rejected; an invalid body yields a validation error and
the recorded timestamp. -/
theorem c9_ssrf_guard_witness :
    urlAllowed "http:" "localhost" = false ∧
    urlAllowed "file:" "example.com" = false ∧
    urlAllowed "http:" (quadHost [1, 0] [0] [0] [1]) = false ∧
    (screenshotPipeline ⟨3600000, 10⟩ 3600000 2000 ⟨[], [], [], 0⟩
        ⟨"ftp:", "example.com", true, false,
          ⟨"ftp://example.com/", none, none, false, false, true, .desktop, .networkidle,
            30000⟩⟩
        "id1" (Except.ok [1])) =
      (.validationError, {(⟨[], [], [], 0⟩ : SvcState) with
        rate := recordRequest ⟨3600000, 10⟩ 2000 []}) := by
  refine ⟨?_, ?_, ?_, ?_⟩
  · exact c9_ssrf_guard.1 "http:" "localhost" (by decide)
  · exact c9_ssrf_guard.2.1 "file:" "example.com" (by decide) (by decide)
  · exact c9_ssrf_guard.2.2.1 "http:" [1, 0] [0] [0] [1]
      ⟨by decide, by decide, by decide⟩ ⟨by decide, by decide, by decide⟩
      ⟨by decide, by decide, by decide⟩ ⟨by decide, by decide, by decide⟩
      (Or.inl (by decide))
  · have h := c9_ssrf_guard.2.2.2.2 ⟨3600000, 10⟩ 3600000 2000 ⟨[], [], [], 0⟩
      ⟨"ftp:", "example.com", true, false,
        ⟨"ftp://example.com/", none, none, false, false, true, .desktop, .networkidle,
          30000⟩⟩
      "id1" (Except.ok [1]) (by decide)
    rw [h]
    rw [if_neg (by decide)]

/-- C10: `shouldBlockUrl` blocks exactly the URLs whose hostname equals or is
a subdomain of a listed ad/tracker domain, or whose raw URL matches one of
the listed ad-path patterns case-insensitively; a URL that `new URL` cannot
parse is never blocked (the `catch` returns `false`).  The function is a
total boolean predicate by construction — the source's only throw site is the
URL parse, and it is caught. -/
theorem c10_adblock_predicate (u : ResourceUrl) :
    (shouldBlockUrl u = true ↔ blockedBySpecC10 u) ∧
    (u.parsedHost = none → shouldBlockUrl u = false) := by
  rcases hph : u.parsedHost with _ | h0
  · refine ⟨?_, fun _ => by simp [shouldBlockUrl, hph]⟩
    constructor
    · intro hb
      simp [shouldBlockUrl, hph] at hb
    · rintro ⟨h0, hh, _⟩
      rw [hph] at hh
      cases hh
  · refine ⟨?_, ?_⟩
    swap
    · intro hn
      cases hn
    · have if_bool_or : ∀ c b : Bool, (if c = true then true else b) = (c || b) := by
        intro c b
        cases c <;> simp
      have hform : shouldBlockUrl u =
          (AD_DOMAINS.contains (lowerStr h0) ||
           AD_DOMAINS.any (fun d => endsWithStr (lowerStr h0) ("." ++ d)) ||
           AD_URL_PATTERNS.any (fun p => ciContains u.raw p)) := by
        simp only [shouldBlockUrl, hph]
        rw [if_bool_or, if_bool_or, if_bool_or, Bool.or_false, Bool.or_assoc]
      have hmemIff : AD_DOMAINS.contains (lowerStr h0) = true ↔ lowerStr h0 ∈ AD_DOMAINS := by
        simp
      have hsufIff : ∀ d : String, endsWithStr (lowerStr h0) ("." ++ d) = true ↔
          ∃ pre, pre ++ ('.' :: d.data) = (lowerStr h0).data := by
        intro d
        unfold endsWithStr
        rw [decide_eq_true_iff]
        have hdd : ("." ++ d).data = '.' :: d.data := rfl
        rw [hdd]
        exact Iff.rfl
      have hinfIff : ∀ p : String, ciContains u.raw p = true ↔
          ∃ la lb, la ++ (lowerStr p).data ++ lb = (lowerStr u.raw).data := by
        intro p
        unfold ciContains strContains
        rw [decide_eq_true_iff]
        exact Iff.rfl
      rw [hform]
      unfold blockedBySpecC10
      simp only [hph, Option.some.injEq, Bool.or_eq_true]
      constructor
      · intro hdisj
        refine ⟨h0, rfl, ?_⟩
        rcases hdisj with (h1 | h2) | h3
        · exact Or.inl (hmemIff.mp h1)
        · refine Or.inr (Or.inl ?_)
          rcases List.any_eq_true.mp h2 with ⟨d, hd, hsuf⟩
          exact ⟨d, hd, (hsufIff d).mp hsuf⟩
        · refine Or.inr (Or.inr ?_)
          rcases List.any_eq_true.mp h3 with ⟨p, hp, hinf⟩
          exact ⟨p, hp, (hinfIff p).mp hinf⟩
      · rintro ⟨h0x, hhx, hdisj⟩
        have hx : h0x = h0 := hhx.symm
        subst hx
        rcases hdisj with h1 | ⟨d, hd, pre, hpre⟩ | ⟨p, hp, la, lb, hlab⟩
        · exact Or.inl (Or.inl (hmemIff.mpr h1))
        · exact Or.inl (Or.inr (List.any_eq_true.mpr ⟨d, hd, (hsufIff d).mpr ⟨pre, hpre⟩⟩))
        · exact Or.inr (List.any_eq_true.mpr ⟨p, hp, (hinfIff p).mpr ⟨la, lb, hlab⟩⟩)

/-- Witness for `c10_adblock_predicate`: an unparseable request URL is not
blocked. -/
theorem c10_adblock_predicate_witness :
    (⟨"not a url /ads/ banner", none⟩ : ResourceUrl).parsedHost = none ∧
    shouldBlockUrl ⟨"not a url /ads/ banner", none⟩ = false :=
  ⟨rfl, (c10_adblock_predicate ⟨"not a url /ads/ banner", none⟩).2 rfl⟩

/-- Hex digits decode to their values. -/
theorem hexVal_hexDigit (d : Nat) (hd : d < 16) : hexVal (hexDigit d) = d := by
  interval_cases d <;> decide

/-- The string parser is a left inverse of JSON string-body escaping. -/
theorem parseStr_escape (s rest : List Char) :
    parseStr (jsonEscape s ++ '"' :: rest) = some (s, rest) := by
  induction s with
  | nil =>
    show parseStr ('"' :: rest) = some ([], rest)
    rw [parseStr.eq_def]
    simp
  | cons c s' ih =>
    have hesc : jsonEscape (c :: s') = jsonEscapeChar c ++ jsonEscape s' := rfl
    rw [hesc, List.append_assoc]
    by_cases h1 : c = '"'
    · subst h1
      rw [show jsonEscapeChar '"' = ['\\', '"'] from rfl]
      rw [show ((['\\', '"'] : List Char) ++ (jsonEscape s' ++ '"' :: rest)) =
        '\\' :: '"' :: (jsonEscape s' ++ '"' :: rest) from rfl]
      rw [parseStr.eq_def]
      simp [unescapeChar, ih]
    · by_cases h2 : c = '\\'
      · subst h2
        rw [show jsonEscapeChar '\\' = ['\\', '\\'] from rfl]
        rw [show ((['\\', '\\'] : List Char) ++ (jsonEscape s' ++ '"' :: rest)) =
          '\\' :: '\\' :: (jsonEscape s' ++ '"' :: rest) from rfl]
        rw [parseStr.eq_def]
        simp [unescapeChar, ih]
      · by_cases h3 : 32 ≤ c.toNat
        · rw [show jsonEscapeChar c = [c] by simp [jsonEscapeChar, h1, h2, h3]]
          rw [show (([c] : List Char) ++ (jsonEscape s' ++ '"' :: rest)) =
            c :: (jsonEscape s' ++ '"' :: rest) from rfl]
          rw [parseStr.eq_def]
          simp [h1, h2, ih]
        · by_cases h4 : c.toNat = 8
          · rw [show jsonEscapeChar c = ['\\', 'b'] by simp [jsonEscapeChar, h1, h2, h3, h4]]
            rw [show ((['\\', 'b'] : List Char) ++ (jsonEscape s' ++ '"' :: rest)) =
              '\\' :: 'b' :: (jsonEscape s' ++ '"' :: rest) from rfl]
            have hc : Char.ofNat 8 = c := by rw [← h4]; exact Char.ofNat_toNat c
            rw [parseStr.eq_def]
            simp [unescapeChar, ih]
            exact hc
          · by_cases h5 : c.toNat = 9
            · rw [show jsonEscapeChar c = ['\\', 't'] by
                simp [jsonEscapeChar, h1, h2, h3, h4, h5]]
              rw [show ((['\\', 't'] : List Char) ++ (jsonEscape s' ++ '"' :: rest)) =
                '\\' :: 't' :: (jsonEscape s' ++ '"' :: rest) from rfl]
              have hc : Char.ofNat 9 = c := by rw [← h5]; exact Char.ofNat_toNat c
              rw [parseStr.eq_def]
              simp [unescapeChar, ih]
              exact hc
            · by_cases h6 : c.toNat = 10
              · rw [show jsonEscapeChar c = ['\\', 'n'] by
                  simp [jsonEscapeChar, h1, h2, h3, h4, h5, h6]]
                rw [show ((['\\', 'n'] : List Char) ++ (jsonEscape s' ++ '"' :: rest)) =
                  '\\' :: 'n' :: (jsonEscape s' ++ '"' :: rest) from rfl]
                have hc : Char.ofNat 10 = c := by rw [← h6]; exact Char.ofNat_toNat c
                rw [parseStr.eq_def]
                simp [unescapeChar, ih]
                exact hc
              · by_cases h7 : c.toNat = 12
                · rw [show jsonEscapeChar c = ['\\', 'f'] by
                    simp [jsonEscapeChar, h1, h2, h3, h4, h5, h6, h7]]
                  rw [show ((['\\', 'f'] : List Char) ++ (jsonEscape s' ++ '"' :: rest)) =
                    '\\' :: 'f' :: (jsonEscape s' ++ '"' :: rest) from rfl]
                  have hc : Char.ofNat 12 = c := by rw [← h7]; exact Char.ofNat_toNat c
                  rw [parseStr.eq_def]
                  simp [unescapeChar, ih]
                  exact hc
                · by_cases h8 : c.toNat = 13
                  · rw [show jsonEscapeChar c = ['\\', 'r'] by
                      simp [jsonEscapeChar, h1, h2, h3, h4, h5, h6, h7, h8]]
                    rw [show ((['\\', 'r'] : List Char) ++ (jsonEscape s' ++ '"' :: rest)) =
                      '\\' :: 'r' :: (jsonEscape s' ++ '"' :: rest) from rfl]
                    have hc : Char.ofNat 13 = c := by rw [← h8]; exact Char.ofNat_toNat c
                    rw [parseStr.eq_def]
                    simp [unescapeChar, ih]
                    exact hc
                  · rw [show jsonEscapeChar c =
                        ['\\', 'u', '0', '0', hexDigit (c.toNat / 16),
                          hexDigit (c.toNat % 16)] by
                      simp [jsonEscapeChar, h1, h2, h3, h4, h5, h6, h7, h8]]
                    rw [show ((['\\', 'u', '0', '0', hexDigit (c.toNat / 16),
                        hexDigit (c.toNat % 16)] : List Char) ++
                        (jsonEscape s' ++ '"' :: rest)) =
                      '\\' :: 'u' :: '0' :: '0' :: hexDigit (c.toNat / 16) ::
                        hexDigit (c.toNat % 16) :: (jsonEscape s' ++ '"' :: rest) from rfl]
                    have hch : Char.ofNat (((hexVal '0' * 16 + hexVal '0') * 16 +
                        hexVal (hexDigit (c.toNat / 16))) * 16 +
                        hexVal (hexDigit (c.toNat % 16))) = c := by
                      rw [hexVal_hexDigit (c.toNat / 16) (by omega),
                        hexVal_hexDigit (c.toNat % 16) (by omega)]
                      rw [show hexVal '0' = 0 from rfl]
                      rw [show ((0 * 16 + 0) * 16 + c.toNat / 16) * 16 + c.toNat % 16 =
                        c.toNat by omega]
                      exact Char.ofNat_toNat c
                    rw [parseStr.eq_def]
                    simp [ih]
                    exact hch

/-- Decimal notation is never empty. -/
theorem toDecimal_ne_nil (n : Nat) : toDecimal n ≠ [] := by
  rw [toDecimal.eq_def]
  split <;> simp

/-- Decimal notation consists of digit characters. -/
theorem toDecimal_digits (n : Nat) : ∀ c ∈ toDecimal n, c.isDigit = true := by
  induction n using Nat.strong_induction_on with
  | _ n ih =>
    intro c hc
    rw [toDecimal.eq_def] at hc
    by_cases hlt : n < 10
    · rw [if_pos hlt] at hc
      simp at hc
      subst hc
      exact digitChar_isDigit n (by omega)
    · rw [if_neg hlt] at hc
      rcases List.mem_append.mp hc with hc1 | hc1
      · exact ih (n / 10) (Nat.div_lt_self (by omega) (by omega)) c hc1
      · simp at hc1
        subst hc1
        exact digitChar_isDigit (n % 10) (by omega)

/-- Consuming the decimal notation of `n` multiplies the accumulator by the
corresponding power of ten and adds `n`. -/
theorem parseDigitsGo_decimal (n : Nat) : ∀ a r, parseDigitsGo a (toDecimal n ++ r) =
    parseDigitsGo (a * 10 ^ (toDecimal n).length + n) r := by
  induction n using Nat.strong_induction_on with
  | _ n ih =>
    intro a r
    by_cases hlt : n < 10
    · have hdec : toDecimal n = [Char.ofNat (48 + n)] := by rw [toDecimal.eq_def, if_pos hlt]
      rw [hdec]
      show parseDigitsGo a (Char.ofNat (48 + n) :: r) = _
      simp only [parseDigitsGo]
      rw [if_pos (digitChar_isDigit n (by omega))]
      rw [digitVal_digitChar n (by omega)]
      simp
    · have hdec : toDecimal n = toDecimal (n / 10) ++ [Char.ofNat (48 + n % 10)] := by
        rw [toDecimal.eq_def, if_neg hlt]
      rw [hdec, List.append_assoc]
      rw [ih (n / 10) (Nat.div_lt_self (by omega) (by omega)) a
        ([Char.ofNat (48 + n % 10)] ++ r)]
      show parseDigitsGo _ (Char.ofNat (48 + n % 10) :: r) = _
      simp only [parseDigitsGo]
      rw [if_pos (digitChar_isDigit (n % 10) (by omega))]
      rw [digitVal_digitChar (n % 10) (by omega)]
      congr 1
      rw [List.length_append, List.length_singleton, pow_succ, Nat.add_mul, ← Nat.mul_assoc]
      omega

/-- The number parser is a left inverse of decimal notation (when whatever
follows does not begin with a digit). -/
theorem parseNat_toDecimal (n : Nat) (r : List Char)
    (hr : ∀ c, r.head? = some c → c.isDigit = false) :
    parseNat (toDecimal n ++ r) = some (n, r) := by
  have hstop : parseDigitsGo n r = (n, r) := by
    rcases r with _ | ⟨c, r2⟩
    · rfl
    · simp only [parseDigitsGo]
      rw [if_neg (by simp [hr c rfl])]
  rcases hd : toDecimal n with _ | ⟨c0, cs⟩
  · exact absurd hd (toDecimal_ne_nil n)
  · have hc0 : c0.isDigit = true := toDecimal_digits n c0 (by rw [hd]; simp)
    simp only [List.cons_append, parseNat]
    rw [if_pos hc0]
    have hback : parseDigitsGo 0 (c0 :: (cs ++ r)) = parseDigitsGo 0 (toDecimal n ++ r) := by
      rw [hd]
      simp
    rw [hback, parseDigitsGo_decimal n 0 r]
    simp [hstop]

/-- Consuming an expected literal succeeds exactly on that literal. -/
theorem expectChars_append (p r : List Char) : expectChars p (p ++ r) = some r := by
  induction p with
  | nil => rfl
  | cons c p' ih => simp [expectChars, ih]

/-- Transfer a concrete head character to the no-leading-digit condition. -/
theorem not_digit_of_head_eq (r : List Char) (c0 : Char) (h0 : r.head? = some c0)
    (hd : c0.isDigit = false) : ∀ c, r.head? = some c → c.isDigit = false := by
  intro c hc
  rw [h0] at hc
  injection hc with h
  rw [← h]
  exact hd

/-- An optional numeric field that is present parses to its value. -/
theorem decodeOptNum_present (pre : List Char) (n : Nat) (r : List Char)
    (hr : ∀ c, r.head? = some c → c.isDigit = false) :
    decodeOptNum pre (pre ++ (toDecimal n ++ r)) = some (some n, r) := by
  unfold decodeOptNum
  rw [expectChars_append]
  simp [parseNat_toDecimal n r hr]

/-- An optional numeric field whose key is absent consumes nothing. -/
theorem decodeOptNum_absent (pre l : List Char) (hne : expectChars pre l = none) :
    decodeOptNum pre l = some (none, l) := by
  unfold decodeOptNum
  rw [hne]

/-- A `width` field followed by the `height` key. -/
theorem decodeOptNum_width_height (n : Nat) (X : List Char) :
    decodeOptNum [',', '"', 'w', 'i', 'd', 't', 'h', '"', ':']
      ([',', '"', 'w', 'i', 'd', 't', 'h', '"', ':'] ++ (toDecimal n ++
        ([',', '"', 'h', 'e', 'i', 'g', 'h', 't', '"', ':'] ++ X))) =
      some (some n, [',', '"', 'h', 'e', 'i', 'g', 'h', 't', '"', ':'] ++ X) :=
  decodeOptNum_present _ n _ (not_digit_of_head_eq _ ',' rfl (by decide))

/-- A `width` field followed directly by the `fullPage` key. -/
theorem decodeOptNum_width_full (n : Nat) (X : List Char) :
    decodeOptNum [',', '"', 'w', 'i', 'd', 't', 'h', '"', ':']
      ([',', '"', 'w', 'i', 'd', 't', 'h', '"', ':'] ++ (toDecimal n ++
        ([',', '"', 'f', 'u', 'l', 'l', 'P', 'a', 'g', 'e', '"', ':'] ++ X))) =
      some (some n, [',', '"', 'f', 'u', 'l', 'l', 'P', 'a', 'g', 'e', '"', ':'] ++ X) :=
  decodeOptNum_present _ n _ (not_digit_of_head_eq _ ',' rfl (by decide))

/-- An absent `width` before the `height` key. -/
theorem decodeOptNum_nowidth_height (X : List Char) :
    decodeOptNum [',', '"', 'w', 'i', 'd', 't', 'h', '"', ':']
      ([',', '"', 'h', 'e', 'i', 'g', 'h', 't', '"', ':'] ++ X) =
      some (none, [',', '"', 'h', 'e', 'i', 'g', 'h', 't', '"', ':'] ++ X) :=
  decodeOptNum_absent _ _ rfl

/-- An absent `width` before the `fullPage` key. -/
theorem decodeOptNum_nowidth_full (X : List Char) :
    decodeOptNum [',', '"', 'w', 'i', 'd', 't', 'h', '"', ':']
      ([',', '"', 'f', 'u', 'l', 'l', 'P', 'a', 'g', 'e', '"', ':'] ++ X) =
      some (none, [',', '"', 'f', 'u', 'l', 'l', 'P', 'a', 'g', 'e', '"', ':'] ++ X) :=
  decodeOptNum_absent _ _ rfl

/-- A `height` field followed by the `fullPage` key. -/
theorem decodeOptNum_height_full (n : Nat) (X : List Char) :
    decodeOptNum [',', '"', 'h', 'e', 'i', 'g', 'h', 't', '"', ':']
      ([',', '"', 'h', 'e', 'i', 'g', 'h', 't', '"', ':'] ++ (toDecimal n ++
        ([',', '"', 'f', 'u', 'l', 'l', 'P', 'a', 'g', 'e', '"', ':'] ++ X))) =
      some (some n, [',', '"', 'f', 'u', 'l', 'l', 'P', 'a', 'g', 'e', '"', ':'] ++ X) :=
  decodeOptNum_present _ n _ (not_digit_of_head_eq _ ',' rfl (by decide))

/-- An absent `height` before the `fullPage` key. -/
theorem decodeOptNum_noheight_full (X : List Char) :
    decodeOptNum [',', '"', 'h', 'e', 'i', 'g', 'h', 't', '"', ':']
      ([',', '"', 'f', 'u', 'l', 'l', 'P', 'a', 'g', 'e', '"', ':'] ++ X) =
      some (none, [',', '"', 'f', 'u', 'l', 'l', 'P', 'a', 'g', 'e', '"', ':'] ++ X) :=
  decodeOptNum_absent _ _ rfl

/-- Boolean literals decode to their values. -/
theorem decodeBool_jsonBool (b : Bool) (r : List Char) :
    decodeBool (jsonBool b ++ r) = some (b, r) := by
  cases b <;> rfl

/-- Device names decode to their values. -/
theorem decodeDevice_name (d : Device) (r : List Char) :
    decodeDevice ((deviceName d).data ++ r) = some (d, r) := by
  cases d <;> rfl

/-- Wait-strategy names decode to their values. -/
theorem decodeWait_name (w : WaitStrategy) (r : List Char) :
    decodeWait ((waitName w).data ++ r) = some (w, r) := by
  cases w <;> rfl

/-- The decoder is a left inverse of the canonical encoding: the encoding
determines the eight cache-relevant fields. -/
theorem decodeNorm_normalized (r : ScreenshotRequest) :
    decodeNorm (normalizedChars r) = some (keyFields r) := by
  rcases hw : r.width with _ | w <;> rcases hh : r.height with _ | h
  · have hshape : normalizedChars r =
        "\x7b\"url\":\"".data ++ (jsonEscape r.url.data ++ ('"' ::
          (",\"fullPage\":".data ++ (jsonBool r.fullPage ++
          (",\"darkMode\":".data ++ (jsonBool r.darkMode ++
          (",\"blockAds\":".data ++ (jsonBool r.blockAds ++
          (",\"device\":\"".data ++ ((deviceName r.device).data ++
          ("\",\"waitFor\":\"".data ++ ((waitName r.waitFor).data ++
            "\"\x7d".data)))))))))))) := by
      simp only [normalizedChars, hw, hh]
      simp [List.append_assoc, show ("\"".data : List Char) = ['"'] from rfl]
    rw [hshape]
    simp only [decodeNorm, expectChars_append, parseStr_escape, decodeOptNum_nowidth_full,
      decodeOptNum_noheight_full, decodeBool_jsonBool, decodeDevice_name, decodeWait_name]
    simp [keyFields, hw, hh]
  · have hshape : normalizedChars r =
        "\x7b\"url\":\"".data ++ (jsonEscape r.url.data ++ ('"' ::
          (",\"height\":".data ++ (toDecimal h ++
          (",\"fullPage\":".data ++ (jsonBool r.fullPage ++
          (",\"darkMode\":".data ++ (jsonBool r.darkMode ++
          (",\"blockAds\":".data ++ (jsonBool r.blockAds ++
          (",\"device\":\"".data ++ ((deviceName r.device).data ++
          ("\",\"waitFor\":\"".data ++ ((waitName r.waitFor).data ++
            "\"\x7d".data)))))))))))))) := by
      simp only [normalizedChars, hw, hh]
      simp [List.append_assoc, show ("\"".data : List Char) = ['"'] from rfl]
    rw [hshape]
    simp only [decodeNorm, expectChars_append, parseStr_escape, decodeOptNum_nowidth_height,
      decodeOptNum_height_full, decodeBool_jsonBool, decodeDevice_name, decodeWait_name]
    simp [keyFields, hw, hh]
  · have hshape : normalizedChars r =
        "\x7b\"url\":\"".data ++ (jsonEscape r.url.data ++ ('"' ::
          (",\"width\":".data ++ (toDecimal w ++
          (",\"fullPage\":".data ++ (jsonBool r.fullPage ++
          (",\"darkMode\":".data ++ (jsonBool r.darkMode ++
          (",\"blockAds\":".data ++ (jsonBool r.blockAds ++
          (",\"device\":\"".data ++ ((deviceName r.device).data ++
          ("\",\"waitFor\":\"".data ++ ((waitName r.waitFor).data ++
            "\"\x7d".data)))))))))))))) := by
      simp only [normalizedChars, hw, hh]
      simp [List.append_assoc, show ("\"".data : List Char) = ['"'] from rfl]
    rw [hshape]
    simp only [decodeNorm, expectChars_append, parseStr_escape, decodeOptNum_width_full,
      decodeOptNum_noheight_full, decodeBool_jsonBool, decodeDevice_name, decodeWait_name]
    simp [keyFields, hw, hh]
  · have hshape : normalizedChars r =
        "\x7b\"url\":\"".data ++ (jsonEscape r.url.data ++ ('"' ::
          (",\"width\":".data ++ (toDecimal w ++
          (",\"height\":".data ++ (toDecimal h ++
          (",\"fullPage\":".data ++ (jsonBool r.fullPage ++
          (",\"darkMode\":".data ++ (jsonBool r.darkMode ++
          (",\"blockAds\":".data ++ (jsonBool r.blockAds ++
          (",\"device\":\"".data ++ ((deviceName r.device).data ++
          ("\",\"waitFor\":\"".data ++ ((waitName r.waitFor).data ++
            "\"\x7d".data)))))))))))))))) := by
      simp only [normalizedChars, hw, hh]
      simp [List.append_assoc, show ("\"".data : List Char) = ['"'] from rfl]
    rw [hshape]
    simp only [decodeNorm, expectChars_append, parseStr_escape, decodeOptNum_width_height,
      decodeOptNum_height_full, decodeBool_jsonBool, decodeDevice_name, decodeWait_name]
    simp [keyFields, hw, hh]

/-- The canonical encoding is injective in the eight cache-relevant fields. -/
theorem normalizedChars_inj (r1 r2 : ScreenshotRequest)
    (h : normalizedChars r1 = normalizedChars r2) : sameKeyFields r1 r2 := by
  have h1 := decodeNorm_normalized r1
  have h2 := decodeNorm_normalized r2
  rw [h, h2] at h1
  injection h1 with h3
  have h4 : r2.url.data = r1.url.data ∧ r2.width = r1.width ∧ r2.height = r1.height ∧
      r2.fullPage = r1.fullPage ∧ r2.darkMode = r1.darkMode ∧ r2.blockAds = r1.blockAds ∧
      r2.device = r1.device ∧ r2.waitFor = r1.waitFor := by
    simpa [keyFields, KeyFields.mk.injEq] using h3
  obtain ⟨hu, hwd, hht, hf, hdm, hba, hdev, hwf⟩ := h4
  exact ⟨congrArg String.mk hu.symm, hwd.symm, hht.symm, hf.symm, hdm.symm, hba.symm,
    hdev.symm, hwf.symm⟩

/-- One compression round preserves the state width. -/
theorem compressRound_length (k w : Nat) (st : List Nat) :
    (compressRound k w st).length = st.length := by
  unfold compressRound
  split
  · simp
  · rfl

/-- The 64 compression rounds preserve the state width. -/
theorem foldl_compressRound_length (l : List (Nat × Nat)) (st : List Nat) :
    (l.foldl (fun s p => compressRound p.1 p.2 s) st).length = st.length := by
  induction l generalizing st with
  | nil => rfl
  | cons p ps ih => rw [List.foldl_cons, ih, compressRound_length]

/-- Feeding one block preserves the 8-word hash state. -/
theorem compressBlock_length (st block : List Nat) :
    (compressBlock st block).length = st.length := by
  unfold compressBlock
  simp [List.length_zip, foldl_compressRound_length]

/-- A SHA-256 digest is 8 words. -/
theorem sha256Words_length (msg : List Nat) : (sha256Words msg).length = 8 := by
  unfold sha256Words
  have hall : ∀ (bs : List (List Nat)) (st : List Nat),
      (bs.foldl compressBlock st).length = st.length := by
    intro bs
    induction bs with
    | nil => intro st; rfl
    | cons b bs2 ih => intro st; rw [List.foldl_cons, ih, compressBlock_length]
  rw [hall]
  rfl

/-- A SHA-256 hex digest is 64 characters. -/
theorem sha256Hex_length (msg : List Nat) : (sha256Hex msg).length = 64 := by
  unfold sha256Hex
  have hflat : ∀ ws : List Nat, ((ws.map hexWord).flatten).length = 8 * ws.length := by
    intro ws
    induction ws with
    | nil => rfl
    | cons w ws2 ih =>
      simp only [List.map_cons, List.flatten_cons, List.length_append, ih]
      simp [hexWord]
      omega
  rw [hflat, sha256Words_length]

/-- C1: the cache key is a deterministic function of exactly the eight fields
{url, width, height, fullPage, darkMode, blockAds, device, waitFor} — two
valid requests differing only in `timeout` get the identical key; any change
to one of the eight fields changes the canonical pre-hash encoding (so the
key changes unless the truncated SHA-256 digests collide, the claim's "with
overwhelming probability"); and the key is the SHA-256 digest of the
canonical encoding truncated to its first 16 hex characters. -/
theorem c1_fingerprint_determinism (r1 r2 : ScreenshotRequest) :
    (sameKeyFields r1 r2 → generateCacheKey r1 = generateCacheKey r2) ∧
    (¬ sameKeyFields r1 r2 → normalizedChars r1 ≠ normalizedChars r2) ∧
    generateCacheKey r1 = ⟨(sha256Hex (utf8Encode (normalizedChars r1))).take 16⟩ ∧
    (generateCacheKey r1).length = 16 := by
  refine ⟨?_, ?_, rfl, ?_⟩
  · intro h
    obtain ⟨h1, h2, h3, h4, h5, h6, h7, h8⟩ := h
    unfold generateCacheKey normalizedChars
    rw [h1, h2, h3, h4, h5, h6, h7, h8]
  · intro h heq
    exact h (normalizedChars_inj r1 r2 heq)
  · show ((sha256Hex (utf8Encode (normalizedChars r1))).take 16).length = 16
    rw [List.length_take, sha256Hex_length]
    decide

/-- Witness for `c1_fingerprint_determinism`: two concrete requests differing
only in timeout share the key; changing the width changes the encoding. -/
theorem c1_fingerprint_determinism_witness :
    (sameKeyFields
        ⟨"https://example.com", some 800, some 600, false, false, true, .desktop,
          .networkidle, 30000⟩
        ⟨"https://example.com", some 800, some 600, false, false, true, .desktop,
          .networkidle, 60000⟩ ∧
      generateCacheKey
        ⟨"https://example.com", some 800, some 600, false, false, true, .desktop,
          .networkidle, 30000⟩ =
      generateCacheKey
        ⟨"https://example.com", some 800, some 600, false, false, true, .desktop,
          .networkidle, 60000⟩) ∧
    (¬ sameKeyFields
        ⟨"https://example.com", some 800, some 600, false, false, true, .desktop,
          .networkidle, 30000⟩
        ⟨"https://example.com", some 801, some 600, false, false, true, .desktop,
          .networkidle, 30000⟩ ∧
      normalizedChars
        ⟨"https://example.com", some 800, some 600, false, false, true, .desktop,
          .networkidle, 30000⟩ ≠
      normalizedChars
        ⟨"https://example.com", some 801, some 600, false, false, true, .desktop,
          .networkidle, 30000⟩) := by
  refine ⟨⟨by decide, ?_⟩, ⟨by decide, ?_⟩⟩
  · exact (c1_fingerprint_determinism
      ⟨"https://example.com", some 800, some 600, false, false, true, .desktop,
        .networkidle, 30000⟩
      ⟨"https://example.com", some 800, some 600, false, false, true, .desktop,
        .networkidle, 60000⟩).1 (by decide)
  · exact (c1_fingerprint_determinism
      ⟨"https://example.com", some 800, some 600, false, false, true, .desktop,
        .networkidle, 30000⟩
      ⟨"https://example.com", some 801, some 600, false, false, true, .desktop,
        .networkidle, 30000⟩).2.1 (by decide)

end ScreenshotApi
